import Mathlib

/-!
Verification development for the bevy-osm-tiles grid-generation core.

The Rust source is shallowly embedded:
  - f64 values become Rat (exact rational arithmetic),
  - Vec<Vec<Tile>> becomes List (List Tile) with length invariants,
  - HashMap<String, String> becomes an association list List (String × String),
  - Result<T, String> becomes Except String T,
  - the unbounded Bresenham loop is embedded with an explicit fuel counter
    (Option-wrapped result, none meaning fuel exhaustion); the development
    proves that the chosen fuel always suffices,
  - the Rust cast `as usize` of a nonnegative float is floor followed by
    saturation at zero, embedded as Int.floor composed with Int.toNat.
-/

namespace OsmTiles

/-- Geographic bounding box, from src/config/region.rs (BoundingBox). -/
structure BoundingBox where
  south : Rat
  west : Rat
  north : Rat
  east : Rat
deriving Repr, DecidableEq

/-- Width in degrees longitude, from BoundingBox::width. -/
def BoundingBox.width (b : BoundingBox) : Rat := b.east - b.west

/-- Height in degrees latitude, from BoundingBox::height. -/
def BoundingBox.height (b : BoundingBox) : Rat := b.north - b.south

/-- Containment check, from BoundingBox::contains. -/
def BoundingBox.contains (b : BoundingBox) (lat lon : Rat) : Bool :=
  decide (lat ≥ b.south) && decide (lat ≤ b.north) &&
  decide (lon ≥ b.west) && decide (lon ≤ b.east)

/-- Tile categories, from src/generator/tile_grid.rs (TileType). -/
inductive TileType where
  | Empty
  | Road
  | Building
  | Water
  | GreenSpace
  | Railway
  | Parking
  | Amenity
  | Tourism
  | Industrial
  | Residential
  | Commercial
  | Custom (name : String)
deriving Repr, DecidableEq

/-- Placement priority, from TileType::priority (u8, values 0..11, no overflow). -/
def TileType.priority : TileType → Nat
  | .Empty => 0
  | .GreenSpace => 1
  | .Water => 2
  | .Residential => 3
  | .Commercial => 4
  | .Industrial => 5
  | .Parking => 6
  | .Road => 7
  | .Railway => 8
  | .Building => 9
  | .Amenity => 10
  | .Tourism => 11
  | .Custom _ => 5

/-- Tile metadata, from TileMetadata (confidence f32 embedded as Rat). -/
structure TileMetadata where
  osm_ids : List Int
  tags : List (String × String)
  confidence : Rat
deriving Repr, DecidableEq

/-- A grid tile, from the Tile struct. -/
structure Tile where
  tile_type : TileType
  metadata : Option TileMetadata
deriving Repr, DecidableEq

/-- Default tile (TileType::Empty, no metadata), from Tile::default. -/
def Tile.empty : Tile := ⟨.Empty, none⟩

/-- Constructor Tile::new. -/
def Tile.new (t : TileType) : Tile := ⟨t, none⟩

/-- Constructor Tile::with_metadata. -/
def Tile.with_metadata (t : TileType) (m : TileMetadata) : Tile := ⟨t, some m⟩

/-- Overwrite rule, from Tile::can_be_overwritten_by: strictly greater priority. -/
def Tile.can_be_overwritten_by (s other : Tile) : Bool :=
  decide (other.tile_type.priority > s.tile_type.priority)

/-- The tile grid, from the TileGrid struct.  The Vec<Vec<Tile>> field keeps
its dimension invariants as proof fields (a Vec of Vecs allocated by
TileGrid::new and only ever updated elementwise has fixed dimensions).
The generation bookkeeping metadata (timestamp, elapsed time) is I/O
bookkeeping and is not part of this embedding. -/
structure TileGrid where
  tiles : List (List Tile)
  width : Nat
  height : Nat
  bounding_box : BoundingBox
  meters_per_tile : Rat
  hrows : tiles.length = height
  hcols : ∀ r ∈ tiles, r.length = width

/-- Constructor TileGrid::new: width times height default (Empty) tiles. -/
def TileGrid.new (width height : Nat) (box : BoundingBox) (mpt : Rat) : TileGrid where
  tiles := List.replicate height (List.replicate width Tile.empty)
  width := width
  height := height
  bounding_box := box
  meters_per_tile := mpt
  hrows := by simp
  hcols := by
    intro r hr
    have := List.eq_of_mem_replicate hr
    simp [this]

/-- Total number of tiles, from TileGrid::tile_count. -/
def TileGrid.tile_count (g : TileGrid) : Nat := g.width * g.height

/-- Reads the tile stored at a grid cell (the raw indexing self.tiles[y][x];
for a well-formed grid every in-range index hits a real entry). -/
def TileGrid.tileAt (g : TileGrid) (x y : Nat) : Tile :=
  (g.tiles.getD y []).getD x Tile.empty

/-- Bounds-checked read, from TileGrid::get_tile. -/
def TileGrid.get_tile (g : TileGrid) (x y : Nat) : Option Tile :=
  if x < g.width ∧ y < g.height then some (g.tileAt x y) else none

theorem list_set_of_length_le {α : Type} {l : List α} {n : Nat} {a : α}
    (h : l.length ≤ n) : l.set n a = l := by
  induction l generalizing n with
  | nil => rfl
  | cons b t ih =>
    cases n with
    | zero => simp at h
    | succ m =>
      simp only [List.set]
      simp only [List.length_cons, Nat.succ_le_succ_iff] at h
      rw [ih h]

/-- Raw single-cell store self.tiles[y][x] = tile. -/
def TileGrid.setRaw (g : TileGrid) (x y : Nat) (t : Tile) : TileGrid where
  tiles := g.tiles.set y ((g.tiles.getD y []).set x t)
  width := g.width
  height := g.height
  bounding_box := g.bounding_box
  meters_per_tile := g.meters_per_tile
  hrows := by rw [List.length_set]; exact g.hrows
  hcols := by
    intro r hr
    by_cases hy : y < g.tiles.length
    · rcases List.mem_or_eq_of_mem_set hr with hmem | rfl
      · exact g.hcols r hmem
      · rw [List.length_set]
        rw [List.getD_eq_getElem _ _ hy]
        exact g.hcols _ (List.getElem_mem hy)
    · rw [list_set_of_length_le (Nat.le_of_not_lt hy)] at hr
      exact g.hcols r hr

/-- Error message of the out-of-bounds branch. -/
def boundsMsg (x y w h : Nat) : String :=
  "Coordinates (" ++ toString x ++ ", " ++ toString y ++ ") out of bounds for grid "
    ++ toString w ++ "x" ++ toString h

/-- Unconditional write, from TileGrid::set_tile. -/
def TileGrid.set_tile (g : TileGrid) (x y : Nat) (t : Tile) :
    Except String TileGrid :=
  if x ≥ g.width ∨ y ≥ g.height then
    .error (boundsMsg x y g.width g.height)
  else
    .ok (g.setRaw x y t)

/-- Priority-gated write, from TileGrid::set_tile_with_priority. -/
def TileGrid.set_tile_with_priority (g : TileGrid) (x y : Nat) (t : Tile) :
    Except String (Bool × TileGrid) :=
  if x ≥ g.width ∨ y ≥ g.height then
    .error (boundsMsg x y g.width g.height)
  else
    let current_tile := g.tileAt x y
    if current_tile.can_be_overwritten_by t then
      .ok (true, g.setRaw x y t)
    else
      .ok (false, g)

/-- The Rust cast `as usize` applied to a nonnegative f64: truncation, which
is floor for nonnegative values; a negative input saturates to 0, which
Int.toNat also yields. -/
def ratToUsize (q : Rat) : Nat := ⌊q⌋.toNat

/-- Coordinate mapping geo to grid, from TileGrid::geo_to_grid. -/
def TileGrid.geo_to_grid (g : TileGrid) (lat lon : Rat) : Option (Nat × Nat) :=
  if !(g.bounding_box.contains lat lon) then none
  else
    let width_deg := g.bounding_box.width
    let height_deg := g.bounding_box.height
    let x_ratio := (lon - g.bounding_box.west) / width_deg
    let y_ratio := (g.bounding_box.north - lat) / height_deg
    let x := ratToUsize (x_ratio * (g.width : Rat))
    let y := ratToUsize (y_ratio * (g.height : Rat))
    some (min x (g.width - 1), min y (g.height - 1))

/-- Coordinate mapping grid to geo (cell center), from TileGrid::grid_to_geo. -/
def TileGrid.grid_to_geo (g : TileGrid) (x y : Nat) : Option (Rat × Rat) :=
  if x ≥ g.width ∨ y ≥ g.height then none
  else
    let width_deg := g.bounding_box.width
    let height_deg := g.bounding_box.height
    let x_ratio := ((x : Rat) + 1/2) / (g.width : Rat)
    let y_ratio := ((y : Rat) + 1/2) / (g.height : Rat)
    let lon := g.bounding_box.west + x_ratio * width_deg
    let lat := g.bounding_box.north - y_ratio * height_deg
    some (lat, lon)

/-- The row-major traversal order of count_tiles_by_type, as a flat list of
the tile types of all cells. -/
def TileGrid.cellTypes (g : TileGrid) : List TileType :=
  ((List.range g.height).map (fun y =>
    (List.range g.width).map (fun x => (g.tileAt x y).tile_type))).flatten

/-- Histogram from TileGrid::count_tiles_by_type; the HashMap is embedded as
the function assigning each tile type its count (0 for an absent key). -/
def TileGrid.count_tiles_by_type (g : TileGrid) (t : TileType) : Nat :=
  g.cellTypes.countP (fun tt => decide (tt = t))

/-- Statistics snapshot, from the GridStatistics struct.  The area_km2 field
uses Haversine trigonometry and is outside this embedding. -/
structure GridStatistics where
  total_tiles : Nat
  non_empty_tiles : Nat
  tile_type_counts : TileType → Nat
  coverage_ratio : Rat
  dimensions : Nat × Nat
  meters_per_tile : Rat

/-- Statistics computation, from TileGrid::statistics. -/
def TileGrid.statistics (g : TileGrid) : GridStatistics :=
  let counts := g.count_tiles_by_type
  let total_tiles := g.tile_count
  let non_empty_tiles := total_tiles - counts TileType.Empty
  { total_tiles := total_tiles
    non_empty_tiles := non_empty_tiles
    tile_type_counts := counts
    coverage_ratio := (non_empty_tiles : Rat) / (total_tiles : Rat)
    dimensions := (g.width, g.height)
    meters_per_tile := g.meters_per_tile }

/-- OSM element kind, from src/generator/osm_parser.rs (OsmElementType). -/
inductive OsmElementType where
  | Node
  | Way
  | Relation
deriving Repr, DecidableEq

/-- Parsed OSM element, from the OsmElement struct; the tag HashMap is an
association list and geometry points are (lat, lon) pairs. -/
structure OsmElement where
  id : Int
  element_type : OsmElementType
  tags : List (String × String)
  geometry : List (Rat × Rat)
deriving Repr, DecidableEq

/-- Tag lookup: HashMap::get on the association list embedding. -/
def tagGet (tags : List (String × String)) (k : String) : Option String :=
  tags.lookup k

/-- Classifier, from OsmElement::to_tile_type: ordered first-match rules over
the tag map. -/
def OsmElement.to_tile_type (e : OsmElement) : TileType :=
  if (tagGet e.tags "building").isSome then
    match tagGet e.tags "building" with
    | some "residential" => .Residential
    | some "commercial" => .Commercial
    | some "retail" => .Commercial
    | some "industrial" => .Industrial
    | _ => .Building
  else if (tagGet e.tags "highway").isSome then .Road
  else if (tagGet e.tags "waterway").isSome
      || tagGet e.tags "natural" == some "water" then .Water
  else if tagGet e.tags "leisure" == some "park"
      || tagGet e.tags "leisure" == some "garden"
      || tagGet e.tags "landuse" == some "forest"
      || tagGet e.tags "natural" == some "wood"
      || tagGet e.tags "landuse" == some "grass" then .GreenSpace
  else if (tagGet e.tags "railway").isSome then .Railway
  else if tagGet e.tags "amenity" == some "parking"
      || tagGet e.tags "landuse" == some "parking" then .Parking
  else if (tagGet e.tags "amenity").isSome then .Amenity
  else if (tagGet e.tags "tourism").isSome then .Tourism
  else
    match tagGet e.tags "landuse" with
    | some landuse =>
      match landuse with
      | "residential" => .Residential
      | "commercial" => .Commercial
      | "retail" => .Commercial
      | "industrial" => .Industrial
      | _ => .Custom ("landuse_" ++ landuse)
    | none => .Empty

/-- Metadata derivation, from OsmElement::to_tile_metadata. -/
def OsmElement.to_tile_metadata (e : OsmElement) : TileMetadata :=
  ⟨[e.id], e.tags, 1⟩

/-- The ten ordered classification rules exactly as the spec states them in
section 4.1 (first match wins), written independently of the code as the
reference for the refinement proof.  The sub-value tables (residential,
commercial, retail, industrial) are the ones the spec names for rules 1
and 9. -/
def classifySpecRules (tags : List (String × String)) : TileType :=
  match tagGet tags "building" with
  | some "residential" => .Residential
  | some "commercial" => .Commercial
  | some "retail" => .Commercial
  | some "industrial" => .Industrial
  | some _ => .Building
  | none =>
    if (tagGet tags "highway").isSome then .Road
    else if (tagGet tags "waterway").isSome ∨ tagGet tags "natural" = some "water" then .Water
    else if tagGet tags "leisure" = some "park" ∨ tagGet tags "leisure" = some "garden"
        ∨ tagGet tags "landuse" = some "forest" ∨ tagGet tags "natural" = some "wood"
        ∨ tagGet tags "landuse" = some "grass" then .GreenSpace
    else if (tagGet tags "railway").isSome then .Railway
    else if tagGet tags "amenity" = some "parking" ∨ tagGet tags "landuse" = some "parking" then
      .Parking
    else if (tagGet tags "amenity").isSome then .Amenity
    else if (tagGet tags "tourism").isSome then .Tourism
    else
      match tagGet tags "landuse" with
      | some "residential" => .Residential
      | some "commercial" => .Commercial
      | some "retail" => .Commercial
      | some "industrial" => .Industrial
      | some v => .Custom ("landuse_" ++ v)
      | none => .Empty

/-- Largest usize value (64-bit platform), the sentinel used by fill_polygon. -/
def USIZE_MAX : Nat := 2 ^ 64 - 1

/-- Default grid generator, from src/generator/grid_builder.rs
(DefaultGridGenerator); the parser field is stateless. -/
structure DefaultGridGenerator where
  max_grid_size : Nat × Nat

/-- Constructor DefaultGridGenerator::new. -/
def DefaultGridGenerator.create : DefaultGridGenerator := ⟨(5000, 5000)⟩

/-- Constructor DefaultGridGenerator::with_max_size. -/
def DefaultGridGenerator.with_max_size (w h : Nat) : DefaultGridGenerator := ⟨(w, h)⟩

/-- The Rust cast `f64.ceil() as usize` (saturating at 0 for negative input). -/
def ceilToUsize (q : Rat) : Nat := ⌈q⌉.toNat

/-- Grid sizing, from DefaultGridGenerator::calculate_grid_dimensions.
grid_resolution is the u32 config field (cells per degree). -/
def DefaultGridGenerator.calculate_grid_dimensions (gen : DefaultGridGenerator)
    (grid_resolution : Nat) (box : BoundingBox) : Except String (Nat × Nat) :=
  let width_deg := box.width
  let height_deg := box.height
  let grid_width := ceilToUsize (width_deg * (grid_resolution : Rat))
  let grid_height := ceilToUsize (height_deg * (grid_resolution : Rat))
  let grid_width := max grid_width 10
  let grid_height := max grid_height 10
  let grid_width := min grid_width gen.max_grid_size.1
  let grid_height := min grid_height gen.max_grid_size.2
  .ok (grid_width, grid_height)

/-- The body of the Bresenham loop that plots the current cell, from the
head of the loop in DefaultGridGenerator::draw_line: the guard skips steps
with a negative coordinate, otherwise the cell is written through
set_tile_with_priority and the error is propagated. -/
def bresPlot (g : TileGrid) (x y : Int) (tile : Tile) (count : Nat) :
    Except String (Nat × TileGrid) :=
  if 0 ≤ x ∧ 0 ≤ y then
    match g.set_tile_with_priority x.toNat y.toNat tile with
    | .error e => .error e
    | .ok (wrote, g1) => .ok ((if wrote then count + 1 else count), g1)
  else
    .ok (count, g)

/-- The Bresenham stepping loop of draw_line, embedded with fuel (the Rust
loop is unbounded; the development proves below that fuel dx + dy + 1
always reaches the break). -/
def bresLoop (x2 y2 dx dy sx sy : Int) (tile : Tile) :
    Nat → Int → Int → Int → Nat → TileGrid → Option (Except String (Nat × TileGrid))
  | 0, _, _, _, _, _ => none
  | fuel + 1, x, y, err, count, g =>
    match bresPlot g x y tile count with
    | .error e => some (.error e)
    | .ok (count1, g1) =>
      if x = x2 ∧ y = y2 then some (.ok (count1, g1))
      else
        let e2 := 2 * err
        let s1 : Int × Int := if e2 > -dy then (err - dy, x + sx) else (err, x)
        let s2 : Int × Int := if e2 < dx then (s1.1 + dx, y + sy) else (s1.1, y)
        bresLoop x2 y2 dx dy sx sy tile fuel s1.2 s2.2 s2.1 count1 g1

/-- Line rasterization, from DefaultGridGenerator::draw_line (Bresenham). -/
def draw_line (x1 y1 x2 y2 : Nat) (tile : Tile) (g : TileGrid) :
    Option (Except String (Nat × TileGrid)) :=
  let dx : Int := |(x2 : Int) - (x1 : Int)|
  let dy : Int := |(y2 : Int) - (y1 : Int)|
  let sx : Int := if x1 < x2 then 1 else -1
  let sy : Int := if y1 < y2 then 1 else -1
  let err : Int := dx - dy
  bresLoop (x2 : Int) (y2 : Int) dx dy sx sy tile (dx + dy + 1).toNat
    (x1 : Int) (y1 : Int) err 0 g

/-- Ray-casting containment test, from DefaultGridGenerator::point_in_polygon.
The fold state carries (inside, j) with j the trailing index, exactly the
mutable locals of the Rust loop. -/
def point_in_polygon (lat lon : Rat) (polygon : List (Rat × Rat)) : Bool :=
  ((List.range polygon.length).foldl (fun (s : Bool × Nat) i =>
    let p_i := polygon.getD i (0, 0)
    let p_j := polygon.getD s.2 (0, 0)
    let inside :=
      if (decide (p_i.1 > lat) != decide (p_j.1 > lat))
          && decide (lon < (p_j.2 - p_i.2) * (lat - p_i.1) / (p_j.1 - p_i.1) + p_i.2)
      then !s.1 else s.1
    (inside, i)) (false, polygon.length - 1)).1

/-- The bounding-rectangle accumulation loop of fill_polygon: folds
(min_x, max_x, min_y, max_y) over the mapped geometry points, starting from
(usize::MAX, 0, usize::MAX, 0). -/
def fillBBoxFold (g : TileGrid) (geometry : List (Rat × Rat)) :
    Nat × Nat × Nat × Nat :=
  geometry.foldl (fun (acc : Nat × Nat × Nat × Nat) p =>
    match g.geo_to_grid p.1 p.2 with
    | some (x, y) => (min acc.1 x, max acc.2.1 x, min acc.2.2.1 y, max acc.2.2.2 y)
    | none => acc) (USIZE_MAX, 0, USIZE_MAX, 0)

/-- Row-major enumeration of the inclusive rectangle scanned by fill_polygon. -/
def rectCells (min_x max_x min_y max_y : Nat) : List (Nat × Nat) :=
  ((List.range' min_y (max_y + 1 - min_y)).map (fun y =>
    (List.range' min_x (max_x + 1 - min_x)).map (fun x => (x, y)))).flatten

/-- One cell of the fill scan, from the body of the nested fill_polygon
loops: cell center back-projection, point-in-polygon test, gated write. -/
def fillCell (geometry : List (Rat × Rat)) (tile : Tile) (c : Nat × Nat)
    (s : Nat × TileGrid) : Except String (Nat × TileGrid) :=
  match s.2.grid_to_geo c.1 c.2 with
  | some (lat, lon) =>
    if point_in_polygon lat lon geometry then
      match s.2.set_tile_with_priority c.1 c.2 tile with
      | .error e => .error e
      | .ok (wrote, g1) => .ok ((if wrote then s.1 + 1 else s.1), g1)
    else .ok s
  | none => .ok s

/-- Error-propagating left fold, the embedding of a Rust for loop whose body
can early-return an Err. -/
def exceptFold {α σ : Type} (f : α → σ → Except String σ) :
    List α → σ → Except String σ
  | [], s => .ok s
  | a :: l, s =>
    match f a s with
    | .error e => .error e
    | .ok s1 => exceptFold f l s1

/-- Polygon fill, from DefaultGridGenerator::fill_polygon. -/
def fill_polygon (geometry : List (Rat × Rat)) (tile : Tile) (g : TileGrid) :
    Except String (Nat × TileGrid) :=
  let bb := fillBBoxFold g geometry
  if bb.1 = USIZE_MAX then .ok (0, g)
  else
    exceptFold (fillCell geometry tile) (rectCells bb.1 bb.2.1 bb.2.2.1 bb.2.2.2) (0, g)

/-- Consecutive pairs, the embedding of geometry.windows(2). -/
def windows2 {α : Type} : List α → List (α × α)
  | a :: b :: l => (a, b) :: windows2 (b :: l)
  | _ => []

/-- Fill eligibility, from the should_fill matches! in rasterize_line. -/
def should_fill : TileType → Bool
  | .Building => true
  | .Water => true
  | .GreenSpace => true
  | .Parking => true
  | .Residential => true
  | .Commercial => true
  | .Industrial => true
  | _ => false

/-- The outline loop of rasterize_line: for every consecutive geometry pair
whose endpoints both map into the grid, draw the Bresenham line. -/
def outlineFold (tile : Tile) :
    List ((Rat × Rat) × (Rat × Rat)) → Nat × TileGrid →
    Option (Except String (Nat × TileGrid))
  | [], s => some (.ok s)
  | (p1, p2) :: rest, (count, g) =>
    match g.geo_to_grid p1.1 p1.2, g.geo_to_grid p2.1 p2.2 with
    | some (x1, y1), some (x2, y2) =>
      (match draw_line x1 y1 x2 y2 tile g with
       | none => none
       | some (.error e) => some (.error e)
       | some (.ok (n, g1)) => outlineFold tile rest (count + n, g1))
    | _, _ => outlineFold tile rest (count, g)

/-- Line or polygon rasterization, from DefaultGridGenerator::rasterize_line. -/
def rasterize_line (geometry : List (Rat × Rat)) (tile : Tile) (g : TileGrid) :
    Option (Except String (Nat × TileGrid)) :=
  match outlineFold tile (windows2 geometry) (0, g) with
  | none => none
  | some (.error e) => some (.error e)
  | some (.ok (count, g1)) =>
    if should_fill tile.tile_type && decide (geometry.length ≥ 3) then
      match fill_polygon geometry tile g1 with
      | .error e => some (.error e)
      | .ok (n, g2) => some (.ok (count + n, g2))
    else some (.ok (count, g1))

/-- Element rasterization, from DefaultGridGenerator::rasterize_element. -/
def rasterize_element (e : OsmElement) (g : TileGrid) :
    Option (Except String (Nat × TileGrid)) :=
  let tile_type := e.to_tile_type
  if tile_type = TileType.Empty then some (.ok (0, g))
  else
    let tile := Tile.with_metadata tile_type e.to_tile_metadata
    match e.geometry with
    | [] => some (.ok (0, g))
    | [p] =>
      (match g.geo_to_grid p.1 p.2 with
       | some (x, y) =>
         (match g.set_tile_with_priority x y tile with
          | .error err => some (.error err)
          | .ok (wrote, g1) => some (.ok ((if wrote then 1 else 0), g1)))
       | none => some (.ok (0, g)))
    | _ => rasterize_line e.geometry tile g

/-- The rasterization pass of generate_grid: fold rasterize_element over the
parsed element list accumulating total_tiles_updated. -/
def rasterize_all : List OsmElement → TileGrid → Option (Except String (Nat × TileGrid))
  | [], g => some (.ok (0, g))
  | e :: rest, g =>
    match rasterize_element e g with
    | none => none
    | some (.error err) => some (.error err)
    | some (.ok (n, g1)) =>
      match rasterize_all rest g1 with
      | none => none
      | some (.error err) => some (.error err)
      | some (.ok (m, g2)) => some (.ok (n + m, g2))

/-! Helper lemmas about grid access. -/

theorem TileGrid.tiles_length (g : TileGrid) : g.tiles.length = g.height := g.hrows

theorem TileGrid.row_length (g : TileGrid) {y : Nat} (hy : y < g.height) :
    (g.tiles.getD y []).length = g.width := by
  have hyl : y < g.tiles.length := by rw [g.hrows]; exact hy
  rw [List.getD_eq_getElem?_getD, List.getElem?_eq_getElem hyl]
  exact g.hcols _ (List.getElem_mem hyl)

theorem TileGrid.setRaw_width (g : TileGrid) (x y : Nat) (t : Tile) :
    (g.setRaw x y t).width = g.width := rfl

theorem TileGrid.setRaw_height (g : TileGrid) (x y : Nat) (t : Tile) :
    (g.setRaw x y t).height = g.height := rfl

theorem TileGrid.setRaw_box (g : TileGrid) (x y : Nat) (t : Tile) :
    (g.setRaw x y t).bounding_box = g.bounding_box := rfl

theorem TileGrid.tileAt_setRaw_self (g : TileGrid) {x y : Nat}
    (hx : x < g.width) (hy : y < g.height) (t : Tile) :
    (g.setRaw x y t).tileAt x y = t := by
  have hyl : y < g.tiles.length := by rw [g.hrows]; exact hy
  have hxr : x < (g.tiles.getD y []).length := by rw [g.row_length hy]; exact hx
  simp only [TileGrid.tileAt, TileGrid.setRaw, List.getD_eq_getElem?_getD]
  rw [List.getElem?_set_self hyl]
  simp only [Option.getD_some]
  rw [List.getElem?_eq_getElem (by simpa using hxr)]
  simp [List.getElem_set_self]

theorem TileGrid.tileAt_setRaw_ne (g : TileGrid) {x y x1 y1 : Nat}
    (hne : ¬(x1 = x ∧ y1 = y)) (t : Tile) :
    (g.setRaw x y t).tileAt x1 y1 = g.tileAt x1 y1 := by
  simp only [TileGrid.tileAt, TileGrid.setRaw, List.getD_eq_getElem?_getD]
  by_cases hy : y1 = y
  · subst hy
    have hx : x1 ≠ x := fun h => hne ⟨h, rfl⟩
    by_cases hyl : y1 < g.tiles.length
    · rw [List.getElem?_set_self hyl]
      simp only [Option.getD_some]
      rw [List.getElem?_eq_getElem hyl]
      simp only [Option.getD_some]
      rw [List.getElem?_set_ne (fun h => hx h.symm)]
    · have hge : g.tiles.length ≤ y1 := Nat.le_of_not_lt hyl
      rw [list_set_of_length_le hge]
  · rw [List.getElem?_set_ne (fun h => hy h.symm)]

/-- The gated write as a total function on a grid: the state outcome of a
successful set_tile_with_priority call. -/
def TileGrid.prioWrite (g : TileGrid) (x y : Nat) (t : Tile) : TileGrid :=
  if (g.tileAt x y).can_be_overwritten_by t then g.setRaw x y t else g

theorem TileGrid.prioWrite_width (g : TileGrid) (x y : Nat) (t : Tile) :
    (g.prioWrite x y t).width = g.width := by
  unfold TileGrid.prioWrite; split <;> rfl

theorem TileGrid.prioWrite_height (g : TileGrid) (x y : Nat) (t : Tile) :
    (g.prioWrite x y t).height = g.height := by
  unfold TileGrid.prioWrite; split <;> rfl

theorem TileGrid.prioWrite_box (g : TileGrid) (x y : Nat) (t : Tile) :
    (g.prioWrite x y t).bounding_box = g.bounding_box := by
  unfold TileGrid.prioWrite; split <;> rfl

theorem TileGrid.set_tile_with_priority_ok (g : TileGrid) {x y : Nat}
    (hx : x < g.width) (hy : y < g.height) (t : Tile) :
    g.set_tile_with_priority x y t =
      .ok ((g.tileAt x y).can_be_overwritten_by t, g.prioWrite x y t) := by
  unfold TileGrid.set_tile_with_priority TileGrid.prioWrite
  rw [if_neg (by omega)]
  by_cases h : (g.tileAt x y).can_be_overwritten_by t
  · simp [h]
  · simp [h]

/-- Priority of the tile stored at a cell. -/
def TileGrid.prioAt (g : TileGrid) (x y : Nat) : Nat :=
  (g.tileAt x y).tile_type.priority

theorem TileGrid.prioAt_prioWrite (g : TileGrid) {x y : Nat}
    (hx : x < g.width) (hy : y < g.height) (t : Tile) (x1 y1 : Nat) :
    (g.prioWrite x y t).prioAt x1 y1 =
      if x1 = x ∧ y1 = y then max (g.prioAt x1 y1) t.tile_type.priority
      else g.prioAt x1 y1 := by
  unfold TileGrid.prioWrite TileGrid.prioAt
  by_cases hcan : (g.tileAt x y).can_be_overwritten_by t
  · rw [if_pos hcan]
    have hlt : (g.tileAt x y).tile_type.priority < t.tile_type.priority := by
      simpa [Tile.can_be_overwritten_by] using hcan
    by_cases heq : x1 = x ∧ y1 = y
    · obtain ⟨rfl, rfl⟩ := heq
      rw [if_pos ⟨rfl, rfl⟩, g.tileAt_setRaw_self hx hy]
      omega
    · rw [if_neg heq, g.tileAt_setRaw_ne heq]
  · rw [if_neg hcan]
    have hle : t.tile_type.priority ≤ (g.tileAt x y).tile_type.priority := by
      simpa [Tile.can_be_overwritten_by] using hcan
    by_cases heq : x1 = x ∧ y1 = y
    · obtain ⟨rfl, rfl⟩ := heq
      rw [if_pos ⟨rfl, rfl⟩]
      omega
    · rw [if_neg heq]

theorem TileGrid.new_width (w h : Nat) (box : BoundingBox) (m : Rat) :
    (TileGrid.new w h box m).width = w := rfl

theorem TileGrid.new_height (w h : Nat) (box : BoundingBox) (m : Rat) :
    (TileGrid.new w h box m).height = h := rfl

theorem TileGrid.tileAt_new (w h : Nat) (box : BoundingBox) (m : Rat) (x y : Nat) :
    (TileGrid.new w h box m).tileAt x y = Tile.empty := by
  simp only [TileGrid.new, TileGrid.tileAt]
  by_cases hy : y < h
  · have hrow : (List.replicate h (List.replicate w Tile.empty)).getD y []
        = List.replicate w Tile.empty := by
      rw [List.getD_eq_getElem?_getD, List.getElem?_eq_getElem (by simpa using hy)]
      simp
    rw [hrow, List.getD_eq_getElem?_getD]
    by_cases hx : x < w
    · rw [List.getElem?_eq_getElem (by simpa using hx)]
      simp
    · rw [List.getElem?_eq_none (by simpa using Nat.le_of_not_lt hx)]
      rfl
  · have hrow : (List.replicate h (List.replicate w Tile.empty)).getD y [] = [] := by
      rw [List.getD_eq_getElem?_getD,
        List.getElem?_eq_none (by simpa using Nat.le_of_not_lt hy)]
      rfl
    rw [hrow]
    rfl

/-! Concrete objects used by witness theorems. -/

def wBox : BoundingBox := ⟨0, 0, 1, 1⟩

def wGrid2 : TileGrid := TileGrid.new 2 2 wBox 1

/-- C1: set_tile_with_priority replaces the current tile A by the new tile B
iff priority B is strictly greater than priority A, returning true exactly
when the write occurred; an equal-or-lower-priority write returns false and
leaves the grid unchanged, so the first writer wins among equal priorities. -/
theorem claim_C1_priority_gated_write (g : TileGrid) (x y : Nat) (b : Tile)
    (hx : x < g.width) (hy : y < g.height) :
    (b.tile_type.priority > (g.tileAt x y).tile_type.priority →
      g.set_tile_with_priority x y b = .ok (true, g.setRaw x y b) ∧
      (g.setRaw x y b).tileAt x y = b ∧
      ∀ x1 y1, ¬(x1 = x ∧ y1 = y) →
        (g.setRaw x y b).tileAt x1 y1 = g.tileAt x1 y1) ∧
    (b.tile_type.priority ≤ (g.tileAt x y).tile_type.priority →
      g.set_tile_with_priority x y b = .ok (false, g)) := by
  constructor
  · intro hgt
    have hcan : (g.tileAt x y).can_be_overwritten_by b = true := by
      simpa [Tile.can_be_overwritten_by] using hgt
    refine ⟨?_, g.tileAt_setRaw_self hx hy b,
      fun x1 y1 hne => g.tileAt_setRaw_ne hne b⟩
    rw [g.set_tile_with_priority_ok hx hy, hcan]
    simp [TileGrid.prioWrite, hcan]
  · intro hle
    have hcan : (g.tileAt x y).can_be_overwritten_by b = false := by
      simp [Tile.can_be_overwritten_by]
      omega
    rw [g.set_tile_with_priority_ok hx hy, hcan]
    simp [TileGrid.prioWrite, hcan]

/-- Witness for C1 at a concrete grid and tile. -/
theorem claim_C1_witness :
    0 < wGrid2.width ∧ 0 < wGrid2.height ∧
    (((Tile.new TileType.Road).tile_type.priority >
        (wGrid2.tileAt 0 0).tile_type.priority →
      wGrid2.set_tile_with_priority 0 0 (Tile.new TileType.Road) =
        .ok (true, wGrid2.setRaw 0 0 (Tile.new TileType.Road)) ∧
      (wGrid2.setRaw 0 0 (Tile.new TileType.Road)).tileAt 0 0 =
        Tile.new TileType.Road ∧
      ∀ x1 y1, ¬(x1 = 0 ∧ y1 = 0) →
        (wGrid2.setRaw 0 0 (Tile.new TileType.Road)).tileAt x1 y1 =
          wGrid2.tileAt x1 y1) ∧
    ((Tile.new TileType.Road).tile_type.priority ≤
        (wGrid2.tileAt 0 0).tile_type.priority →
      wGrid2.set_tile_with_priority 0 0 (Tile.new TileType.Road) =
        .ok (false, wGrid2))) :=
  ⟨by decide, by decide,
    claim_C1_priority_gated_write wGrid2 0 0 (Tile.new TileType.Road)
      (by decide) (by decide)⟩

/-- C10: Custom tiles have priority 5 for every name, the same as Industrial;
hence Custom never overwrites Industrial or another Custom and vice versa,
Custom is overwritten by Parking, Road, Railway, Building, Amenity, Tourism
and not by Empty, GreenSpace, Water, Residential, Commercial. -/
theorem claim_C10_custom_priority (name : String) :
    (TileType.Custom name).priority = 5 ∧
    (TileType.Custom name).priority = TileType.Industrial.priority ∧
    (∀ n2 : String, (Tile.new (TileType.Custom name)).can_be_overwritten_by
      (Tile.new (TileType.Custom n2)) = false) ∧
    (Tile.new TileType.Industrial).can_be_overwritten_by
      (Tile.new (TileType.Custom name)) = false ∧
    (Tile.new (TileType.Custom name)).can_be_overwritten_by
      (Tile.new TileType.Industrial) = false ∧
    (Tile.new (TileType.Custom name)).can_be_overwritten_by
      (Tile.new TileType.Parking) = true ∧
    (Tile.new (TileType.Custom name)).can_be_overwritten_by
      (Tile.new TileType.Road) = true ∧
    (Tile.new (TileType.Custom name)).can_be_overwritten_by
      (Tile.new TileType.Railway) = true ∧
    (Tile.new (TileType.Custom name)).can_be_overwritten_by
      (Tile.new TileType.Building) = true ∧
    (Tile.new (TileType.Custom name)).can_be_overwritten_by
      (Tile.new TileType.Amenity) = true ∧
    (Tile.new (TileType.Custom name)).can_be_overwritten_by
      (Tile.new TileType.Tourism) = true ∧
    (Tile.new (TileType.Custom name)).can_be_overwritten_by
      (Tile.new TileType.Empty) = false ∧
    (Tile.new (TileType.Custom name)).can_be_overwritten_by
      (Tile.new TileType.GreenSpace) = false ∧
    (Tile.new (TileType.Custom name)).can_be_overwritten_by
      (Tile.new TileType.Water) = false ∧
    (Tile.new (TileType.Custom name)).can_be_overwritten_by
      (Tile.new TileType.Residential) = false ∧
    (Tile.new (TileType.Custom name)).can_be_overwritten_by
      (Tile.new TileType.Commercial) = false :=
  ⟨rfl, rfl, fun _ => rfl, rfl, rfl, rfl, rfl, rfl, rfl, rfl, rfl, rfl, rfl,
    rfl, rfl, rfl⟩

/-- C7: for every grid state the statistics satisfy
non_empty_tiles + tile_type_counts Empty = total_tiles, with
total_tiles = width * height and coverage_ratio the quotient. -/
theorem claim_C7_coverage_conservation (g : TileGrid) :
    g.statistics.non_empty_tiles + g.statistics.tile_type_counts TileType.Empty
      = g.statistics.total_tiles ∧
    g.statistics.total_tiles = g.width * g.height ∧
    g.statistics.coverage_ratio =
      (g.statistics.non_empty_tiles : Rat) / (g.statistics.total_tiles : Rat) := by
  have hlen : g.cellTypes.length = g.height * g.width := by
    simp only [TileGrid.cellTypes, List.length_flatten, List.map_map]
    have : (List.range g.height).map
        (List.length ∘ fun y => (List.range g.width).map
          (fun x => (g.tileAt x y).tile_type))
        = List.replicate g.height g.width := by
      rw [List.eq_replicate_iff]
      constructor
      · simp
      · intro b hb
        simp only [List.mem_map] at hb
        obtain ⟨y, _, hby⟩ := hb
        simp [← hby]
    rw [this, List.sum_replicate, smul_eq_mul]
  have hle : g.count_tiles_by_type TileType.Empty ≤ g.tile_count := by
    have := List.countP_le_length
      (p := fun tt => decide (tt = TileType.Empty)) (l := g.cellTypes)
    rw [hlen] at this
    unfold TileGrid.count_tiles_by_type TileGrid.tile_count
    rw [Nat.mul_comm]
    exact this
  refine ⟨?_, rfl, rfl⟩
  simp only [TileGrid.statistics]
  omega

/-- C8: the grid dimensions are the ceiling of bbox extent times resolution,
brought to at least 10 and at most the configured maximum per axis (5000 by
default for DefaultGridGenerator::new), so each returned dimension lies in
the interval from min 10 max to max. -/
theorem claim_C8_grid_dimensions (gen : DefaultGridGenerator) (res : Nat)
    (box : BoundingBox) :
    gen.calculate_grid_dimensions res box =
      .ok (min (max (ceilToUsize (box.width * (res : Rat))) 10) gen.max_grid_size.1,
           min (max (ceilToUsize (box.height * (res : Rat))) 10) gen.max_grid_size.2) ∧
    (∀ gw gh, gen.calculate_grid_dimensions res box = .ok (gw, gh) →
      min 10 gen.max_grid_size.1 ≤ gw ∧ gw ≤ gen.max_grid_size.1 ∧
      min 10 gen.max_grid_size.2 ≤ gh ∧ gh ≤ gen.max_grid_size.2) ∧
    DefaultGridGenerator.create.max_grid_size = (5000, 5000) := by
  refine ⟨rfl, ?_, rfl⟩
  intro gw gh h
  unfold DefaultGridGenerator.calculate_grid_dimensions at h
  simp only [Except.ok.injEq, Prod.mk.injEq] at h
  obtain ⟨h1, h2⟩ := h
  subst h1
  subst h2
  omega

/-- Witness for C8 discharging the inner equation hypothesis concretely. -/
theorem claim_C8_witness :
    min 10 DefaultGridGenerator.create.max_grid_size.1 ≤ 100 ∧
    100 ≤ DefaultGridGenerator.create.max_grid_size.1 ∧
    min 10 DefaultGridGenerator.create.max_grid_size.2 ≤ 100 ∧
    100 ≤ DefaultGridGenerator.create.max_grid_size.2 :=
  (claim_C8_grid_dimensions DefaultGridGenerator.create 100 wBox).2.1 100 100
    (by
      rw [(claim_C8_grid_dimensions DefaultGridGenerator.create 100 wBox).1]
      have hw : wBox.width * ((100 : Nat) : Rat) = (100 : Rat) := by
        norm_num [wBox, BoundingBox.width]
      have hh : wBox.height * ((100 : Nat) : Rat) = (100 : Rat) := by
        norm_num [wBox, BoundingBox.height]
      have hc : ceilToUsize (100 : Rat) = 100 := by
        rw [ceilToUsize]
        norm_num
        rfl
      rw [hw, hh, hc]
      rfl)

/-- C9: an element classified Empty, or one with an empty geometry list,
rasterizes to zero tiles written with no error and an unchanged grid. -/
theorem claim_C9_empty_element (e : OsmElement) (g : TileGrid)
    (h : e.to_tile_type = TileType.Empty ∨ e.geometry = []) :
    rasterize_element e g = some (.ok (0, g)) := by
  unfold rasterize_element
  rcases h with h | h
  · rw [if_pos h]
  · by_cases ht : e.to_tile_type = TileType.Empty
    · rw [if_pos ht]
    · rw [if_neg ht, h]

/-- Witness for C9: a tagless point element on a concrete grid. -/
theorem claim_C9_witness :
    ((OsmElement.mk 1 OsmElementType.Node [] [(1/2, 1/2)]).to_tile_type =
        TileType.Empty ∨
      (OsmElement.mk 1 OsmElementType.Node [] [(1/2, 1/2)]).geometry = []) ∧
    rasterize_element (OsmElement.mk 1 OsmElementType.Node [] [(1/2, 1/2)]) wGrid2
      = some (.ok (0, wGrid2)) :=
  ⟨Or.inl rfl,
    claim_C9_empty_element (OsmElement.mk 1 OsmElementType.Node [] [(1/2, 1/2)])
      wGrid2 (Or.inl rfl)⟩

set_option maxHeartbeats 1600000 in
/-- C5: to_tile_type is a pure function of the tag map that implements the
ten ordered first-match rules of spec section 4.1 (stated by
classifySpecRules), and in particular an element tagged both building=yes
and highway=residential classifies as Building. -/
theorem claim_C5_classifier_rules (e : OsmElement) :
    e.to_tile_type = classifySpecRules e.tags ∧
    (OsmElement.mk 1 OsmElementType.Way
      [("building", "yes"), ("highway", "residential")] []).to_tile_type =
      TileType.Building := by
  refine ⟨?_, by decide⟩
  unfold OsmElement.to_tile_type classifySpecRules
  cases hb : tagGet e.tags "building" with
  | some v =>
    simp only [hb, Option.isSome_some, if_true]
    split <;> split <;> simp_all
  | none =>
    simp only [hb, Option.isSome_none, Bool.false_eq_true, if_false]
    by_cases h1 : (tagGet e.tags "highway").isSome
    · simp [h1]
    · simp only [h1, Bool.false_eq_true, if_false]
      by_cases h2a : (tagGet e.tags "waterway").isSome
      · simp [h2a]
      · by_cases h2b : tagGet e.tags "natural" = some "water"
        · simp [h2a, h2b]
        · by_cases h3a : tagGet e.tags "leisure" = some "park"
          · simp [h2a, h2b, h3a]
          · by_cases h3b : tagGet e.tags "leisure" = some "garden"
            · simp [h2a, h2b, h3a, h3b]
            · by_cases h3c : tagGet e.tags "landuse" = some "forest"
              · simp [h2a, h2b, h3a, h3b, h3c]
              · by_cases h3d : tagGet e.tags "natural" = some "wood"
                · simp [h2a, h2b, h3a, h3b, h3c, h3d]
                · by_cases h3e : tagGet e.tags "landuse" = some "grass"
                  · simp [h2a, h2b, h3a, h3b, h3c, h3d, h3e]
                  · by_cases h4 : (tagGet e.tags "railway").isSome
                    · simp [h2a, h2b, h3a, h3b, h3c, h3d, h3e, h4]
                    · by_cases h5a : tagGet e.tags "amenity" = some "parking"
                      · simp [h2a, h2b, h3a, h3b, h3c, h3d, h3e, h4, h5a]
                      · by_cases h5b : tagGet e.tags "landuse" = some "parking"
                        · simp [h2a, h2b, h3a, h3b, h3c, h3d, h3e, h4, h5a, h5b]
                        · by_cases h6 : (tagGet e.tags "amenity").isSome
                          · simp [h2a, h2b, h3a, h3b, h3c, h3d, h3e, h4, h5a,
                              h5b, h6]
                          · by_cases h7 : (tagGet e.tags "tourism").isSome
                            · simp [h2a, h2b, h3a, h3b, h3c, h3d, h3e, h4, h5a,
                                h5b, h6, h7]
                            · simp only [h2a, h2b, h3a, h3b, h3c, h3d, h3e, h4,
                                h5a, h5b, h6, h7, Bool.false_eq_true, if_false,
                                beq_iff_eq, Bool.or_eq_true, or_self, false_or,
                                or_false, decide_eq_true_eq, if_neg,
                                Option.isSome_none]
                              cases hl : tagGet e.tags "landuse" with
                              | none => simp [hl]
                              | some v => split <;> split <;> simp_all

/-! Coordinate mapper lemmas. -/

theorem TileGrid.geo_to_grid_mem (g : TileGrid) (hw : 1 ≤ g.width)
    (hh : 1 ≤ g.height) {lat lon : Rat} {x y : Nat}
    (h : g.geo_to_grid lat lon = some (x, y)) : x < g.width ∧ y < g.height := by
  unfold TileGrid.geo_to_grid at h
  by_cases hc : g.bounding_box.contains lat lon
  · simp only [hc, Bool.not_true, Bool.false_eq_true, if_false,
      Option.some.injEq, Prod.mk.injEq] at h
    obtain ⟨hx, hy⟩ := h
    constructor
    · have := Nat.min_le_right
        (ratToUsize ((lon - g.bounding_box.west) / g.bounding_box.width * (g.width : Rat)))
        (g.width - 1)
      omega
    · have := Nat.min_le_right
        (ratToUsize ((g.bounding_box.north - lat) / g.bounding_box.height * (g.height : Rat)))
        (g.height - 1)
      omega
  · simp only [Bool.not_eq_true] at hc
    simp [hc] at h

/-- C4: geo_to_grid returns none exactly when the point lies outside the
bounding box (boundary points count as inside), and otherwise returns a
cell with both coordinates in range. -/
theorem claim_C4_bounding_invariant (g : TileGrid) (hw : 1 ≤ g.width)
    (hh : 1 ≤ g.height) (lat lon : Rat) :
    (g.geo_to_grid lat lon = none ↔ g.bounding_box.contains lat lon = false) ∧
    (g.bounding_box.contains lat lon = true →
      ∃ x y, g.geo_to_grid lat lon = some (x, y) ∧ x < g.width ∧ y < g.height) := by
  by_cases hc : g.bounding_box.contains lat lon
  · constructor
    · simp [TileGrid.geo_to_grid, hc]
    · intro _
      have hres : g.geo_to_grid lat lon = some
          (min (ratToUsize ((lon - g.bounding_box.west) / g.bounding_box.width
            * (g.width : Rat))) (g.width - 1),
           min (ratToUsize ((g.bounding_box.north - lat) / g.bounding_box.height
            * (g.height : Rat))) (g.height - 1)) := by
        unfold TileGrid.geo_to_grid
        rw [hc]
        rfl
      obtain ⟨h1, h2⟩ := g.geo_to_grid_mem hw hh hres
      exact ⟨_, _, hres, h1, h2⟩
  · simp only [Bool.not_eq_true] at hc
    constructor
    · simp [TileGrid.geo_to_grid, hc]
    · intro habs
      rw [hc] at habs
      exact absurd habs (by simp)

/-- Witness for C4 at a concrete grid and point. -/
theorem claim_C4_witness :
    ((wGrid2.geo_to_grid (1/2) (1/2) = none ↔
      wGrid2.bounding_box.contains (1/2) (1/2) = false) ∧
    (wGrid2.bounding_box.contains (1/2) (1/2) = true →
      ∃ x y, wGrid2.geo_to_grid (1/2) (1/2) = some (x, y) ∧
        x < wGrid2.width ∧ y < wGrid2.height)) :=
  claim_C4_bounding_invariant wGrid2 (by decide) (by decide) (1/2) (1/2)

/-- C3: for a nondegenerate bounding box and any in-range cell, grid_to_geo
returns the cell center and geo_to_grid maps that center back to exactly
the original cell. -/
theorem claim_C3_roundtrip (g : TileGrid) (x y : Nat) (hx : x < g.width)
    (hy : y < g.height) (hns : g.bounding_box.south < g.bounding_box.north)
    (hwe : g.bounding_box.west < g.bounding_box.east) :
    ∃ lat lon, g.grid_to_geo x y = some (lat, lon) ∧
      g.geo_to_grid lat lon = some (x, y) := by
  have hW0 : (0 : Rat) < (g.width : Rat) := by
    have : 0 < g.width := by omega
    exact_mod_cast this
  have hH0 : (0 : Rat) < (g.height : Rat) := by
    have : 0 < g.height := by omega
    exact_mod_cast this
  have hwd : (0 : Rat) < g.bounding_box.width := by
    rw [BoundingBox.width]; linarith
  have hhd : (0 : Rat) < g.bounding_box.height := by
    rw [BoundingBox.height]; linarith
  have hx1 : (x : Rat) + 1 ≤ (g.width : Rat) := by exact_mod_cast hx
  have hy1 : (y : Rat) + 1 ≤ (g.height : Rat) := by exact_mod_cast hy
  set lon : Rat :=
    g.bounding_box.west + (((x : Rat) + 1/2) / (g.width : Rat)) * g.bounding_box.width
    with hlon
  set lat : Rat :=
    g.bounding_box.north - (((y : Rat) + 1/2) / (g.height : Rat)) * g.bounding_box.height
    with hlat
  have hxr0 : (0 : Rat) ≤ ((x : Rat) + 1/2) / (g.width : Rat) := by positivity
  have hyr0 : (0 : Rat) ≤ ((y : Rat) + 1/2) / (g.height : Rat) := by positivity
  have hxr1 : ((x : Rat) + 1/2) / (g.width : Rat) ≤ 1 := by
    rw [div_le_one hW0]; linarith
  have hyr1 : ((y : Rat) + 1/2) / (g.height : Rat) ≤ 1 := by
    rw [div_le_one hH0]; linarith
  have hg2g : g.grid_to_geo x y = some (lat, lon) := by
    unfold TileGrid.grid_to_geo
    rw [if_neg (by omega)]
  have hcont : g.bounding_box.contains lat lon = true := by
    unfold BoundingBox.contains
    simp only [Bool.and_eq_true, decide_eq_true_eq]
    have hbh : g.bounding_box.height = g.bounding_box.north - g.bounding_box.south := rfl
    have hbw : g.bounding_box.width = g.bounding_box.east - g.bounding_box.west := rfl
    refine ⟨⟨⟨?_, ?_⟩, ?_⟩, ?_⟩
    · have h1 : (((y : Rat) + 1/2) / (g.height : Rat)) * g.bounding_box.height
          ≤ g.bounding_box.height := by
        nlinarith
      rw [hlat]
      linarith [hbh ▸ h1]
    · have h1 : (0 : Rat) ≤ (((y : Rat) + 1/2) / (g.height : Rat)) * g.bounding_box.height :=
        mul_nonneg hyr0 hhd.le
      rw [hlat]
      linarith
    · have h1 : (0 : Rat) ≤ (((x : Rat) + 1/2) / (g.width : Rat)) * g.bounding_box.width :=
        mul_nonneg hxr0 hwd.le
      rw [hlon]
      linarith
    · have h1 : (((x : Rat) + 1/2) / (g.width : Rat)) * g.bounding_box.width
          ≤ g.bounding_box.width := by
        nlinarith
      rw [hlon]
      linarith [hbw ▸ h1]
  refine ⟨lat, lon, hg2g, ?_⟩
  unfold TileGrid.geo_to_grid
  rw [hcont]
  simp only [Bool.not_true, Bool.false_eq_true, if_false]
  have hxval : (lon - g.bounding_box.west) / g.bounding_box.width * (g.width : Rat)
      = (x : Rat) + 1/2 := by
    rw [hlon]
    field_simp
    ring
  have hyval : (g.bounding_box.north - lat) / g.bounding_box.height * (g.height : Rat)
      = (y : Rat) + 1/2 := by
    rw [hlat]
    field_simp
    ring
  rw [hxval, hyval]
  have hfx : ratToUsize ((x : Rat) + 1/2) = x := by
    unfold ratToUsize
    have hfl : ⌊(x : Rat) + 1/2⌋ = (x : Int) := by
      rw [Int.floor_eq_iff]
      constructor
      · push_cast; linarith
      · push_cast; linarith
    rw [hfl, Int.toNat_natCast]
  have hfy : ratToUsize ((y : Rat) + 1/2) = y := by
    unfold ratToUsize
    have hfl : ⌊(y : Rat) + 1/2⌋ = (y : Int) := by
      rw [Int.floor_eq_iff]
      constructor
      · push_cast; linarith
      · push_cast; linarith
    rw [hfl, Int.toNat_natCast]
  rw [hfx, hfy]
  rw [Nat.min_eq_left (by omega), Nat.min_eq_left (by omega)]

/-- Witness for C3 at a concrete grid and cell. -/
theorem claim_C3_witness :
    ∃ lat lon, wGrid2.grid_to_geo 1 0 = some (lat, lon) ∧
      wGrid2.geo_to_grid lat lon = some (1, 0) :=
  claim_C3_roundtrip wGrid2 1 0 (by decide) (by decide)
    (by norm_num [wGrid2, TileGrid.new, wBox])
    (by norm_num [wGrid2, TileGrid.new, wBox])

/-! Ghost state for the rasterizer proofs: the list of cells a rasterization
step attempts to write, and the cumulative effect of those writes. -/

/-- Sequential application of gated writes of one tile at a list of cells. -/
def writeAll (cs : List (Nat × Nat)) (t : Tile) (g : TileGrid) : TileGrid :=
  cs.foldl (fun g c => g.prioWrite c.1 c.2 t) g

theorem writeAll_nil (t : Tile) (g : TileGrid) : writeAll [] t g = g := rfl

theorem writeAll_cons (c : Nat × Nat) (cs : List (Nat × Nat)) (t : Tile)
    (g : TileGrid) :
    writeAll (c :: cs) t g = writeAll cs t (g.prioWrite c.1 c.2 t) := rfl

theorem writeAll_append (cs1 cs2 : List (Nat × Nat)) (t : Tile) (g : TileGrid) :
    writeAll (cs1 ++ cs2) t g = writeAll cs2 t (writeAll cs1 t g) := by
  unfold writeAll
  rw [List.foldl_append]

theorem writeAll_width (cs : List (Nat × Nat)) (t : Tile) (g : TileGrid) :
    (writeAll cs t g).width = g.width := by
  induction cs generalizing g with
  | nil => rfl
  | cons c cs ih =>
    rw [writeAll_cons, ih, TileGrid.prioWrite_width]

theorem writeAll_height (cs : List (Nat × Nat)) (t : Tile) (g : TileGrid) :
    (writeAll cs t g).height = g.height := by
  induction cs generalizing g with
  | nil => rfl
  | cons c cs ih =>
    rw [writeAll_cons, ih, TileGrid.prioWrite_height]

theorem writeAll_box (cs : List (Nat × Nat)) (t : Tile) (g : TileGrid) :
    (writeAll cs t g).bounding_box = g.bounding_box := by
  induction cs generalizing g with
  | nil => rfl
  | cons c cs ih =>
    rw [writeAll_cons, ih, TileGrid.prioWrite_box]

theorem prioAt_writeAll (w h : Nat) (t : Tile) (cs : List (Nat × Nat))
    (hcs : ∀ c ∈ cs, c.1 < w ∧ c.2 < h) :
    ∀ g : TileGrid, g.width = w → g.height = h → ∀ x y,
      (writeAll cs t g).prioAt x y =
        if (x, y) ∈ cs then max (g.prioAt x y) t.tile_type.priority
        else g.prioAt x y := by
  induction cs with
  | nil =>
    intro g _ _ x y
    rw [writeAll_nil, if_neg (by simp)]
  | cons c cs ih =>
    intro g hgw hgh x y
    have hC := hcs c (List.mem_cons_self c cs)
    have hrest : ∀ c2 ∈ cs, c2.1 < w ∧ c2.2 < h :=
      fun c2 hc2 => hcs c2 (List.mem_cons_of_mem c hc2)
    rw [writeAll_cons,
      ih hrest (g.prioWrite c.1 c.2 t)
        (by rw [TileGrid.prioWrite_width, hgw])
        (by rw [TileGrid.prioWrite_height, hgh]) x y,
      g.prioAt_prioWrite (by omega) (by omega) t x y]
    by_cases he : x = c.1 ∧ y = c.2
    · have hxy : (x, y) = c := by
        obtain ⟨h1, h2⟩ := he
        exact Prod.ext h1 h2
      by_cases hm : (x, y) ∈ cs
      · rw [if_pos hm, if_pos he, if_pos (by simp [hxy])]
        omega
      · rw [if_neg hm, if_pos he, if_pos (by simp [hxy])]
    · have hxy : (x, y) ≠ c := fun hcontra => by
        apply he
        rw [← hcontra]
        exact ⟨rfl, rfl⟩
      by_cases hm : (x, y) ∈ cs
      · rw [if_pos hm, if_neg he, if_pos (by simp [hm])]
      · rw [if_neg hm, if_neg he, if_neg (by simp [hxy, hm])]

theorem bresPlot_ok (g : TileGrid) {x y : Int} (hx0 : 0 ≤ x) (hy0 : 0 ≤ y)
    (hxw : x.toNat < g.width) (hyh : y.toNat < g.height) (tile : Tile) (count : Nat) :
    bresPlot g x y tile count = .ok
      ((if (g.tileAt x.toNat y.toNat).can_be_overwritten_by tile then count + 1
        else count),
       g.prioWrite x.toNat y.toNat tile) := by
  unfold bresPlot
  rw [if_pos ⟨hx0, hy0⟩, g.set_tile_with_priority_ok hxw hyh]

theorem bresLoop_succ (x2 y2 dx dy sx sy : Int) (tile : Tile) (fuel : Nat)
    (x y err : Int) (count : Nat) (g : TileGrid) :
    bresLoop x2 y2 dx dy sx sy tile (fuel + 1) x y err count g =
      match bresPlot g x y tile count with
      | .error e => some (.error e)
      | .ok (count1, g1) =>
        if x = x2 ∧ y = y2 then some (.ok (count1, g1))
        else
          let e2 := 2 * err
          let s1 : Int × Int := if e2 > -dy then (err - dy, x + sx) else (err, x)
          let s2 : Int × Int := if e2 < dx then (s1.1 + dx, y + sy) else (s1.1, y)
          bresLoop x2 y2 dx dy sx sy tile fuel s1.2 s2.2 s2.1 count1 g1 := rfl

theorem bresLoop_step (x2 y2 dx dy sx sy : Int) (tile : Tile) (fuel : Nat)
    (x y err : Int) (count count1 : Nat) (g g1 : TileGrid)
    (hplot : bresPlot g x y tile count = .ok (count1, g1))
    (hne : ¬(x = x2 ∧ y = y2)) :
    bresLoop x2 y2 dx dy sx sy tile (fuel + 1) x y err count g =
      bresLoop x2 y2 dx dy sx sy tile fuel
        (if 2 * err > -dy then x + sx else x)
        (if 2 * err < dx then y + sy else y)
        ((if 2 * err > -dy then err - dy else err) + (if 2 * err < dx then dx else 0))
        count1 g1 := by
  rw [bresLoop_succ, hplot]
  dsimp only
  rw [if_neg hne]
  by_cases hc1 : 2 * err > -dy <;> by_cases hc2 : 2 * err < dx <;>
    simp [hc1, hc2]
set_option maxHeartbeats 1600000 in
theorem bresLoop_spec (w h : Nat) (x2 y2 dx dy sx sy : Int) (tile : Tile)
    (hdx : 0 ≤ dx) (hdy : 0 ≤ dy)
    (hsx : sx = 1 ∨ sx = -1) (hsy : sy = 1 ∨ sy = -1)
    (hx2a : 0 ≤ x2) (hx2b : x2 < (w : Int))
    (hy2a : 0 ≤ y2) (hy2b : y2 < (h : Int))
    (hx1a : 0 ≤ x2 - sx * dx) (hx1b : x2 - sx * dx < (w : Int))
    (hy1a : 0 ≤ y2 - sy * dy) (hy1b : y2 - sy * dy < (h : Int)) :
    ∀ fuel : Nat, ∀ a b : Int, 0 ≤ a → a ≤ dx → 0 ≤ b → b ≤ dy →
      (a + b).toNat < fuel →
      ∃ cs : List (Nat × Nat), (∀ c ∈ cs, c.1 < w ∧ c.2 < h) ∧
        ∀ g : TileGrid, g.width = w → g.height = h → ∀ count : Nat,
          ∃ n : Nat,
            bresLoop x2 y2 dx dy sx sy tile fuel (x2 - sx * a) (y2 - sy * b)
              (dx - dy + a * dy - b * dx) count g
              = some (.ok (n, writeAll cs tile g)) := by
  intro fuel
  induction fuel with
  | zero => intro a b _ _ _ _ hfuel; omega
  | succ fuel ih =>
    intro a b ha hadx hb hbdy hfuel
    have hxa : 0 ≤ x2 - sx * a ∧ x2 - sx * a < (w : Int) := by
      rcases hsx with rfl | rfl
      · simp only [one_mul] at hx1a hx1b ⊢
        omega
      · simp only [neg_one_mul, sub_neg_eq_add] at hx1a hx1b ⊢
        omega
    have hyb : 0 ≤ y2 - sy * b ∧ y2 - sy * b < (h : Int) := by
      rcases hsy with rfl | rfl
      · simp only [one_mul] at hy1a hy1b ⊢
        omega
      · simp only [neg_one_mul, sub_neg_eq_add] at hy1a hy1b ⊢
        omega
    have hxw : (x2 - sx * a).toNat < w := by omega
    have hyh : (y2 - sy * b).toNat < h := by omega
    by_cases hab : a = 0 ∧ b = 0
    · obtain ⟨rfl, rfl⟩ := hab
      refine ⟨[((x2 - sx * 0).toNat, (y2 - sy * 0).toNat)], ?_, ?_⟩
      · intro c hc
        simp only [List.mem_singleton] at hc
        subst hc
        exact ⟨hxw, hyh⟩
      · intro g hgw hgh count
        rw [bresLoop_succ,
          bresPlot_ok g hxa.1 hyb.1 (by omega) (by omega) tile count]
        dsimp only
        rw [if_pos ⟨by ring, by ring⟩]
        exact ⟨_, rfl⟩
    · have hc1a : 2 * (dx - dy + a * dy - b * dx) > -dy → 1 ≤ a := by
        intro hgt
        by_contra hlt
        have ha0 : a = 0 := by omega
        subst ha0
        have hb1 : 1 ≤ b := by
          by_contra hb0
          exact hab ⟨rfl, by omega⟩
        have hprod : 0 ≤ dx * (b - 1) := mul_nonneg hdx (by omega)
        nlinarith
      have hc2b : 2 * (dx - dy + a * dy - b * dx) < dx → 1 ≤ b := by
        intro hlt
        by_contra hge
        have hb0 : b = 0 := by omega
        subst hb0
        have ha1 : 1 ≤ a := by
          by_contra ha0
          exact hab ⟨by omega, rfl⟩
        have hprod : 0 ≤ dy * (a - 1) := mul_nonneg hdy (by omega)
        nlinarith
      have hprog : 2 * (dx - dy + a * dy - b * dx) > -dy ∨
          2 * (dx - dy + a * dy - b * dx) < dx := by
        by_contra hneither
        push_neg at hneither
        obtain ⟨hle1, hle2⟩ := hneither
        have hd0 : dx = 0 ∧ dy = 0 := by omega
        exact hab ⟨by omega, by omega⟩
      have hnterm : ¬(x2 - sx * a = x2 ∧ y2 - sy * b = y2) := by
        intro hcontra
        apply hab
        obtain ⟨h1, h2⟩ := hcontra
        rcases hsx with rfl | rfl <;> rcases hsy with rfl | rfl <;>
          constructor <;> omega
      by_cases hc1 : 2 * (dx - dy + a * dy - b * dx) > -dy <;>
        by_cases hc2 : 2 * (dx - dy + a * dy - b * dx) < dx
      · -- both coordinates step
        have ha1 := hc1a hc1
        have hb1 := hc2b hc2
        obtain ⟨cs2, hcs2, hrun2⟩ := ih (a - 1) (b - 1)
          (by omega) (by omega) (by omega) (by omega) (by omega)
        refine ⟨((x2 - sx * a).toNat, (y2 - sy * b).toNat) :: cs2, ?_, ?_⟩
        · intro c hc
          rcases List.mem_cons.mp hc with rfl | hcc
          · exact ⟨hxw, hyh⟩
          · exact hcs2 c hcc
        · intro g hgw hgh count
          obtain ⟨n, hrun⟩ := hrun2
            (g.prioWrite (x2 - sx * a).toNat (y2 - sy * b).toNat tile)
            (by rw [TileGrid.prioWrite_width, hgw])
            (by rw [TileGrid.prioWrite_height, hgh])
            (if (g.tileAt (x2 - sx * a).toNat (y2 - sy * b).toNat).can_be_overwritten_by
                tile then count + 1 else count)
          refine ⟨n, ?_⟩
          rw [bresLoop_step x2 y2 dx dy sx sy tile fuel _ _ _ count _ g _
            (bresPlot_ok g hxa.1 hyb.1 (by omega) (by omega) tile count) hnterm]
          rw [if_pos hc1, if_pos hc1, if_pos hc2, if_pos hc2]
          rw [show x2 - sx * a + sx = x2 - sx * (a - 1) from by ring,
            show y2 - sy * b + sy = y2 - sy * (b - 1) from by ring,
            show dx - dy + a * dy - b * dx - dy + dx
              = dx - dy + (a - 1) * dy - (b - 1) * dx from by ring]
          rw [writeAll_cons]
          exact hrun
      · -- only x steps
        have ha1 := hc1a hc1
        obtain ⟨cs2, hcs2, hrun2⟩ := ih (a - 1) b
          (by omega) (by omega) (by omega) (by omega) (by omega)
        refine ⟨((x2 - sx * a).toNat, (y2 - sy * b).toNat) :: cs2, ?_, ?_⟩
        · intro c hc
          rcases List.mem_cons.mp hc with rfl | hcc
          · exact ⟨hxw, hyh⟩
          · exact hcs2 c hcc
        · intro g hgw hgh count
          obtain ⟨n, hrun⟩ := hrun2
            (g.prioWrite (x2 - sx * a).toNat (y2 - sy * b).toNat tile)
            (by rw [TileGrid.prioWrite_width, hgw])
            (by rw [TileGrid.prioWrite_height, hgh])
            (if (g.tileAt (x2 - sx * a).toNat (y2 - sy * b).toNat).can_be_overwritten_by
                tile then count + 1 else count)
          refine ⟨n, ?_⟩
          rw [bresLoop_step x2 y2 dx dy sx sy tile fuel _ _ _ count _ g _
            (bresPlot_ok g hxa.1 hyb.1 (by omega) (by omega) tile count) hnterm]
          rw [if_pos hc1, if_pos hc1, if_neg hc2, if_neg hc2]
          rw [show x2 - sx * a + sx = x2 - sx * (a - 1) from by ring,
            show dx - dy + a * dy - b * dx - dy + 0
              = dx - dy + (a - 1) * dy - b * dx from by ring]
          rw [writeAll_cons]
          exact hrun
      · -- only y steps
        have hb1 := hc2b hc2
        obtain ⟨cs2, hcs2, hrun2⟩ := ih a (b - 1)
          (by omega) (by omega) (by omega) (by omega) (by omega)
        refine ⟨((x2 - sx * a).toNat, (y2 - sy * b).toNat) :: cs2, ?_, ?_⟩
        · intro c hc
          rcases List.mem_cons.mp hc with rfl | hcc
          · exact ⟨hxw, hyh⟩
          · exact hcs2 c hcc
        · intro g hgw hgh count
          obtain ⟨n, hrun⟩ := hrun2
            (g.prioWrite (x2 - sx * a).toNat (y2 - sy * b).toNat tile)
            (by rw [TileGrid.prioWrite_width, hgw])
            (by rw [TileGrid.prioWrite_height, hgh])
            (if (g.tileAt (x2 - sx * a).toNat (y2 - sy * b).toNat).can_be_overwritten_by
                tile then count + 1 else count)
          refine ⟨n, ?_⟩
          rw [bresLoop_step x2 y2 dx dy sx sy tile fuel _ _ _ count _ g _
            (bresPlot_ok g hxa.1 hyb.1 (by omega) (by omega) tile count) hnterm]
          rw [if_neg hc1, if_neg hc1, if_pos hc2, if_pos hc2]
          rw [show y2 - sy * b + sy = y2 - sy * (b - 1) from by ring,
            show dx - dy + a * dy - b * dx + dx
              = dx - dy + a * dy - (b - 1) * dx from by ring]
          rw [writeAll_cons]
          exact hrun
      · exact absurd hprog (by tauto)
theorem draw_line_spec (w h : Nat) (x1 y1 x2 y2 : Nat) (tile : Tile)
    (hx1 : x1 < w) (hy1 : y1 < h) (hx2 : x2 < w) (hy2 : y2 < h) :
    ∃ cs : List (Nat × Nat), (∀ c ∈ cs, c.1 < w ∧ c.2 < h) ∧
      ∀ g : TileGrid, g.width = w → g.height = h →
        ∃ n : Nat, draw_line x1 y1 x2 y2 tile g
          = some (.ok (n, writeAll cs tile g)) := by
  have habsx : |(x2 : Int) - (x1 : Int)|
      = ((((x2 : Int) - (x1 : Int)).natAbs : Nat) : Int) := Int.abs_eq_natAbs _
  have habsy : |(y2 : Int) - (y1 : Int)|
      = ((((y2 : Int) - (y1 : Int)).natAbs : Nat) : Int) := Int.abs_eq_natAbs _
  set SX : Int := if x1 < x2 then (1 : Int) else -1 with hSX
  set SY : Int := if y1 < y2 then (1 : Int) else -1 with hSY
  have hsx : SX = 1 ∨ SX = -1 := by
    by_cases hd : x1 < x2 <;> simp [hSX, hd]
  have hsy : SY = 1 ∨ SY = -1 := by
    by_cases hd : y1 < y2 <;> simp [hSY, hd]
  have hxkey : (x2 : Int) - SX * |(x2 : Int) - (x1 : Int)| = (x1 : Int) := by
    by_cases hd : x1 < x2
    · rw [hSX, if_pos hd, one_mul, habsx]
      omega
    · rw [hSX, if_neg hd, neg_one_mul, habsx]
      omega
  have hykey : (y2 : Int) - SY * |(y2 : Int) - (y1 : Int)| = (y1 : Int) := by
    by_cases hd : y1 < y2
    · rw [hSY, if_pos hd, one_mul, habsy]
      omega
    · rw [hSY, if_neg hd, neg_one_mul, habsy]
      omega
  obtain ⟨cs, hcs, hrun⟩ := bresLoop_spec w h (x2 : Int) (y2 : Int)
    |(x2 : Int) - (x1 : Int)| |(y2 : Int) - (y1 : Int)| SX SY tile
    (abs_nonneg _) (abs_nonneg _) hsx hsy
    (Int.natCast_nonneg x2) (by exact_mod_cast hx2)
    (Int.natCast_nonneg y2) (by exact_mod_cast hy2)
    (by rw [hxkey]; exact Int.natCast_nonneg x1)
    (by rw [hxkey]; exact_mod_cast hx1)
    (by rw [hykey]; exact Int.natCast_nonneg y1)
    (by rw [hykey]; exact_mod_cast hy1)
    ((|(x2 : Int) - (x1 : Int)| + |(y2 : Int) - (y1 : Int)| + 1).toNat)
    |(x2 : Int) - (x1 : Int)| |(y2 : Int) - (y1 : Int)|
    (abs_nonneg _) le_rfl (abs_nonneg _) le_rfl
    (by rw [habsx, habsy]; omega)
  refine ⟨cs, hcs, ?_⟩
  intro g hgw hgh
  obtain ⟨n, hrun1⟩ := hrun g hgw hgh 0
  refine ⟨n, ?_⟩
  rw [hxkey, hykey,
    show |(x2 : Int) - (x1 : Int)| - |(y2 : Int) - (y1 : Int)|
        + |(x2 : Int) - (x1 : Int)| * |(y2 : Int) - (y1 : Int)|
        - |(y2 : Int) - (y1 : Int)| * |(x2 : Int) - (x1 : Int)|
      = |(x2 : Int) - (x1 : Int)| - |(y2 : Int) - (y1 : Int)| from by ring] at hrun1
  exact hrun1

theorem TileGrid.geo_to_grid_congr (g g2 : TileGrid) (hw : g.width = g2.width)
    (hh : g.height = g2.height) (hb : g.bounding_box = g2.bounding_box)
    (lat lon : Rat) : g.geo_to_grid lat lon = g2.geo_to_grid lat lon := by
  unfold TileGrid.geo_to_grid
  rw [hw, hh, hb]

theorem TileGrid.grid_to_geo_congr (g g2 : TileGrid) (hw : g.width = g2.width)
    (hh : g.height = g2.height) (hb : g.bounding_box = g2.bounding_box)
    (x y : Nat) : g.grid_to_geo x y = g2.grid_to_geo x y := by
  unfold TileGrid.grid_to_geo
  rw [hw, hh, hb]

theorem fillBBoxFold_congr (g g2 : TileGrid) (hw : g.width = g2.width)
    (hh : g.height = g2.height) (hb : g.bounding_box = g2.bounding_box)
    (geometry : List (Rat × Rat)) :
    fillBBoxFold g geometry = fillBBoxFold g2 geometry := by
  unfold fillBBoxFold
  congr 1
  funext acc p
  rw [TileGrid.geo_to_grid_congr g g2 hw hh hb]

theorem fillBBox_go (g : TileGrid) (hw : 1 ≤ g.width) (hh : 1 ≤ g.height) :
    ∀ (geometry : List (Rat × Rat)) (acc : Nat × Nat × Nat × Nat),
      (acc = (USIZE_MAX, 0, USIZE_MAX, 0) ∨
        (acc.1 < g.width ∧ acc.2.1 < g.width ∧
         acc.2.2.1 < g.height ∧ acc.2.2.2 < g.height)) →
      (geometry.foldl (fun (acc : Nat × Nat × Nat × Nat) p =>
          match g.geo_to_grid p.1 p.2 with
          | some (x, y) =>
            (min acc.1 x, max acc.2.1 x, min acc.2.2.1 y, max acc.2.2.2 y)
          | none => acc) acc = (USIZE_MAX, 0, USIZE_MAX, 0) ∨
        ((geometry.foldl (fun (acc : Nat × Nat × Nat × Nat) p =>
          match g.geo_to_grid p.1 p.2 with
          | some (x, y) =>
            (min acc.1 x, max acc.2.1 x, min acc.2.2.1 y, max acc.2.2.2 y)
          | none => acc) acc).1 < g.width ∧
         (geometry.foldl (fun (acc : Nat × Nat × Nat × Nat) p =>
          match g.geo_to_grid p.1 p.2 with
          | some (x, y) =>
            (min acc.1 x, max acc.2.1 x, min acc.2.2.1 y, max acc.2.2.2 y)
          | none => acc) acc).2.1 < g.width ∧
         (geometry.foldl (fun (acc : Nat × Nat × Nat × Nat) p =>
          match g.geo_to_grid p.1 p.2 with
          | some (x, y) =>
            (min acc.1 x, max acc.2.1 x, min acc.2.2.1 y, max acc.2.2.2 y)
          | none => acc) acc).2.2.1 < g.height ∧
         (geometry.foldl (fun (acc : Nat × Nat × Nat × Nat) p =>
          match g.geo_to_grid p.1 p.2 with
          | some (x, y) =>
            (min acc.1 x, max acc.2.1 x, min acc.2.2.1 y, max acc.2.2.2 y)
          | none => acc) acc).2.2.2 < g.height)) := by
  intro geometry
  induction geometry with
  | nil =>
    intro acc h
    simpa using h
  | cons p rest ih =>
    intro acc h
    simp only [List.foldl_cons]
    apply ih
    cases hgg : g.geo_to_grid p.1 p.2 with
    | none => simpa [hgg] using h
    | some c =>
      obtain ⟨x, y⟩ := c
      obtain ⟨hxb, hyb⟩ := g.geo_to_grid_mem hw hh hgg
      right
      rcases h with rfl | hP
      · refine ⟨?_, ?_, ?_, ?_⟩ <;> simp [hgg] <;> omega
      · refine ⟨?_, ?_, ?_, ?_⟩ <;> simp [hgg] <;> omega

theorem fillBBoxFold_bounds (g : TileGrid) (hw : 1 ≤ g.width)
    (hh : 1 ≤ g.height) (geometry : List (Rat × Rat)) :
    fillBBoxFold g geometry = (USIZE_MAX, 0, USIZE_MAX, 0) ∨
    ((fillBBoxFold g geometry).1 < g.width ∧
     (fillBBoxFold g geometry).2.1 < g.width ∧
     (fillBBoxFold g geometry).2.2.1 < g.height ∧
     (fillBBoxFold g geometry).2.2.2 < g.height) := by
  unfold fillBBoxFold
  exact fillBBox_go g hw hh geometry _ (Or.inl rfl)

theorem TileGrid.grid_to_geo_eq (g : TileGrid) {x y : Nat} (hx : x < g.width)
    (hy : y < g.height) :
    g.grid_to_geo x y = some
      (g.bounding_box.north -
        (((y : Rat) + 1/2) / (g.height : Rat)) * g.bounding_box.height,
       g.bounding_box.west +
        (((x : Rat) + 1/2) / (g.width : Rat)) * g.bounding_box.width) := by
  unfold TileGrid.grid_to_geo
  rw [if_neg (by omega)]

theorem exceptFold_cons {α σ : Type} (f : α → σ → Except String σ) (a : α)
    (l : List α) (s : σ) :
    exceptFold f (a :: l) s =
      match f a s with
      | .error e => .error e
      | .ok s1 => exceptFold f l s1 := rfl

theorem exceptFold_fill_spec (w h : Nat) (box : BoundingBox)
    (geometry : List (Rat × Rat)) (tile : Tile) :
    ∀ cells : List (Nat × Nat), (∀ c ∈ cells, c.1 < w ∧ c.2 < h) →
    ∃ cs : List (Nat × Nat), (∀ c ∈ cs, c.1 < w ∧ c.2 < h) ∧
      ∀ (g : TileGrid) (count : Nat),
        g.width = w → g.height = h → g.bounding_box = box →
        ∃ n, exceptFold (fillCell geometry tile) cells (count, g)
          = .ok (n, writeAll cs tile g) := by
  intro cells
  induction cells with
  | nil =>
    intro _
    exact ⟨[], by simp, fun g count _ _ _ => ⟨count, rfl⟩⟩
  | cons c rest ih =>
    intro hcells
    have hc := hcells c (List.mem_cons_self c rest)
    obtain ⟨cs2, hcs2, hrun2⟩ := ih (fun c2 h2 => hcells c2 (List.mem_cons_of_mem c h2))
    by_cases hpip : point_in_polygon
        (box.north - (((c.2 : Rat) + 1/2) / (h : Rat)) * box.height)
        (box.west + (((c.1 : Rat) + 1/2) / (w : Rat)) * box.width) geometry
    · refine ⟨c :: cs2, ?_, ?_⟩
      · intro c2 h2
        rcases List.mem_cons.mp h2 with rfl | h2
        · exact hc
        · exact hcs2 c2 h2
      · intro g count hgw hgh hgb
        obtain ⟨n, hrun⟩ := hrun2 (g.prioWrite c.1 c.2 tile)
          (if (g.tileAt c.1 c.2).can_be_overwritten_by tile then count + 1 else count)
          (by rw [TileGrid.prioWrite_width, hgw])
          (by rw [TileGrid.prioWrite_height, hgh])
          (by rw [TileGrid.prioWrite_box, hgb])
        refine ⟨n, ?_⟩
        have hg2g : g.grid_to_geo c.1 c.2 = some
            (box.north - (((c.2 : Rat) + 1/2) / (h : Rat)) * box.height,
             box.west + (((c.1 : Rat) + 1/2) / (w : Rat)) * box.width) := by
          rw [g.grid_to_geo_eq (by omega) (by omega), hgb, hgw, hgh]
        have hfc : fillCell geometry tile c (count, g) = .ok
            ((if (g.tileAt c.1 c.2).can_be_overwritten_by tile then count + 1
              else count),
             g.prioWrite c.1 c.2 tile) := by
          unfold fillCell
          rw [hg2g]
          dsimp only
          rw [if_pos hpip, g.set_tile_with_priority_ok (by omega) (by omega)]
        rw [exceptFold_cons, hfc]
        dsimp only
        rw [writeAll_cons]
        exact hrun
    · refine ⟨cs2, hcs2, ?_⟩
      intro g count hgw hgh hgb
      obtain ⟨n, hrun⟩ := hrun2 g count hgw hgh hgb
      refine ⟨n, ?_⟩
      have hg2g : g.grid_to_geo c.1 c.2 = some
          (box.north - (((c.2 : Rat) + 1/2) / (h : Rat)) * box.height,
           box.west + (((c.1 : Rat) + 1/2) / (w : Rat)) * box.width) := by
        rw [g.grid_to_geo_eq (by omega) (by omega), hgb, hgw, hgh]
      have hfc : fillCell geometry tile c (count, g) = .ok (count, g) := by
        unfold fillCell
        rw [hg2g]
        dsimp only
        rw [if_neg hpip]
      rw [exceptFold_cons, hfc]
      exact hrun

theorem fill_polygon_spec (w h : Nat) (box : BoundingBox)
    (geometry : List (Rat × Rat)) (tile : Tile)
    (hw : 1 ≤ w) (hh : 1 ≤ h) (hwM : w ≤ USIZE_MAX) :
    ∃ cs : List (Nat × Nat), (∀ c ∈ cs, c.1 < w ∧ c.2 < h) ∧
      ∀ g : TileGrid, g.width = w → g.height = h → g.bounding_box = box →
        ∃ n, fill_polygon geometry tile g = .ok (n, writeAll cs tile g) := by
  have hRw : (TileGrid.new w h box 1).width = w := rfl
  have hRh : (TileGrid.new w h box 1).height = h := rfl
  have hRb : (TileGrid.new w h box 1).bounding_box = box := rfl
  rcases fillBBoxFold_bounds (TileGrid.new w h box 1) (by rw [hRw]; exact hw)
      (by rw [hRh]; exact hh) geometry with hini | hbd
  · refine ⟨[], by simp, ?_⟩
    intro g hgw hgh hgb
    refine ⟨0, ?_⟩
    have hbbg : fillBBoxFold g geometry
        = fillBBoxFold (TileGrid.new w h box 1) geometry :=
      fillBBoxFold_congr g _ (by rw [hgw, hRw]) (by rw [hgh, hRh])
        (by rw [hgb, hRb]) geometry
    unfold fill_polygon
    rw [hbbg, hini]
    rfl
  · have hne : (fillBBoxFold (TileGrid.new w h box 1) geometry).1 ≠ USIZE_MAX := by
      rw [hRw] at hbd
      omega
    have hcells : ∀ c ∈ rectCells
        (fillBBoxFold (TileGrid.new w h box 1) geometry).1
        (fillBBoxFold (TileGrid.new w h box 1) geometry).2.1
        (fillBBoxFold (TileGrid.new w h box 1) geometry).2.2.1
        (fillBBoxFold (TileGrid.new w h box 1) geometry).2.2.2,
        c.1 < w ∧ c.2 < h := by
      rw [hRw, hRh] at hbd
      intro c hcmem
      simp only [rectCells, List.mem_flatten, List.mem_map] at hcmem
      obtain ⟨row, ⟨y, hy, rfl⟩, hcrow⟩ := hcmem
      simp only [List.mem_map] at hcrow
      obtain ⟨x, hx, rfl⟩ := hcrow
      simp only [List.mem_range'] at hy hx
      obtain ⟨i, hi, rfl⟩ := hy
      obtain ⟨j, hj, rfl⟩ := hx
      constructor <;> simp <;> omega
    obtain ⟨cs, hcs, hrun⟩ := exceptFold_fill_spec w h box geometry tile _ hcells
    refine ⟨cs, hcs, ?_⟩
    intro g hgw hgh hgb
    obtain ⟨n, hrun1⟩ := hrun g 0 hgw hgh hgb
    refine ⟨n, ?_⟩
    have hbbg : fillBBoxFold g geometry
        = fillBBoxFold (TileGrid.new w h box 1) geometry :=
      fillBBoxFold_congr g _ (by rw [hgw, hRw]) (by rw [hgh, hRh])
        (by rw [hgb, hRb]) geometry
    unfold fill_polygon
    rw [hbbg]
    dsimp only
    rw [if_neg hne]
    exact hrun1

theorem outlineFold_cons (tile : Tile) (p1 p2 : Rat × Rat)
    (rest : List ((Rat × Rat) × (Rat × Rat))) (count : Nat) (g : TileGrid) :
    outlineFold tile ((p1, p2) :: rest) (count, g) =
      match g.geo_to_grid p1.1 p1.2, g.geo_to_grid p2.1 p2.2 with
      | some (x1, y1), some (x2, y2) =>
        (match draw_line x1 y1 x2 y2 tile g with
         | none => none
         | some (.error e) => some (.error e)
         | some (.ok (n, g1)) => outlineFold tile rest (count + n, g1))
      | _, _ => outlineFold tile rest (count, g) := rfl

theorem outlineFold_spec (w h : Nat) (box : BoundingBox) (tile : Tile)
    (hw : 1 ≤ w) (hh : 1 ≤ h) :
    ∀ pairs : List ((Rat × Rat) × (Rat × Rat)),
    ∃ cs : List (Nat × Nat), (∀ c ∈ cs, c.1 < w ∧ c.2 < h) ∧
      ∀ (g : TileGrid) (count : Nat),
        g.width = w → g.height = h → g.bounding_box = box →
        ∃ n, outlineFold tile pairs (count, g)
          = some (.ok (n, writeAll cs tile g)) := by
  intro pairs
  induction pairs with
  | nil =>
    exact ⟨[], by simp, fun g count _ _ _ => ⟨count, rfl⟩⟩
  | cons pq rest ih =>
    obtain ⟨p1, p2⟩ := pq
    obtain ⟨cs2, hcs2, hrun2⟩ := ih
    cases hm1 : (TileGrid.new w h box 1).geo_to_grid p1.1 p1.2 with
    | none =>
      refine ⟨cs2, hcs2, ?_⟩
      intro g count hgw hgh hgb
      have hg1 : g.geo_to_grid p1.1 p1.2 = none := by
        rw [TileGrid.geo_to_grid_congr g (TileGrid.new w h box 1)
          (by rw [hgw]; rfl) (by rw [hgh]; rfl) (by rw [hgb]; rfl)]
        exact hm1
      obtain ⟨n, hrest⟩ := hrun2 g count hgw hgh hgb
      refine ⟨n, ?_⟩
      rw [outlineFold_cons, hg1]
      exact hrest
    | some c1 =>
      obtain ⟨x1, y1⟩ := c1
      cases hm2 : (TileGrid.new w h box 1).geo_to_grid p2.1 p2.2 with
      | none =>
        refine ⟨cs2, hcs2, ?_⟩
        intro g count hgw hgh hgb
        have hg1 : g.geo_to_grid p1.1 p1.2 = some (x1, y1) := by
          rw [TileGrid.geo_to_grid_congr g (TileGrid.new w h box 1)
            (by rw [hgw]; rfl) (by rw [hgh]; rfl) (by rw [hgb]; rfl)]
          exact hm1
        have hg2 : g.geo_to_grid p2.1 p2.2 = none := by
          rw [TileGrid.geo_to_grid_congr g (TileGrid.new w h box 1)
            (by rw [hgw]; rfl) (by rw [hgh]; rfl) (by rw [hgb]; rfl)]
          exact hm2
        obtain ⟨n, hrest⟩ := hrun2 g count hgw hgh hgb
        refine ⟨n, ?_⟩
        rw [outlineFold_cons, hg1, hg2]
        exact hrest
      | some c2 =>
        obtain ⟨x2, y2⟩ := c2
        have hb1 := (TileGrid.new w h box 1).geo_to_grid_mem hw hh hm1
        have hb2 := (TileGrid.new w h box 1).geo_to_grid_mem hw hh hm2
        obtain ⟨cs1, hcs1, hrun1⟩ := draw_line_spec w h x1 y1 x2 y2 tile
          hb1.1 hb1.2 hb2.1 hb2.2
        refine ⟨cs1 ++ cs2, ?_, ?_⟩
        · intro c hcmem
          rcases List.mem_append.mp hcmem with hcc | hcc
          · exact hcs1 c hcc
          · exact hcs2 c hcc
        · intro g count hgw hgh hgb
          have hg1 : g.geo_to_grid p1.1 p1.2 = some (x1, y1) := by
            rw [TileGrid.geo_to_grid_congr g (TileGrid.new w h box 1)
              (by rw [hgw]; rfl) (by rw [hgh]; rfl) (by rw [hgb]; rfl)]
            exact hm1
          have hg2 : g.geo_to_grid p2.1 p2.2 = some (x2, y2) := by
            rw [TileGrid.geo_to_grid_congr g (TileGrid.new w h box 1)
              (by rw [hgw]; rfl) (by rw [hgh]; rfl) (by rw [hgb]; rfl)]
            exact hm2
          obtain ⟨n1, hdraw⟩ := hrun1 g hgw hgh
          obtain ⟨n2, hrest⟩ := hrun2 (writeAll cs1 tile g) (count + n1)
            (by rw [writeAll_width, hgw]) (by rw [writeAll_height, hgh])
            (by rw [writeAll_box, hgb])
          refine ⟨n2, ?_⟩
          rw [outlineFold_cons, hg1, hg2]
          dsimp only
          rw [hdraw]
          dsimp only
          rw [writeAll_append]
          exact hrest

theorem rasterize_line_spec (w h : Nat) (box : BoundingBox)
    (geometry : List (Rat × Rat)) (tile : Tile)
    (hw : 1 ≤ w) (hh : 1 ≤ h) (hwM : w ≤ USIZE_MAX) :
    ∃ cs : List (Nat × Nat), (∀ c ∈ cs, c.1 < w ∧ c.2 < h) ∧
      ∀ g : TileGrid, g.width = w → g.height = h → g.bounding_box = box →
        ∃ n, rasterize_line geometry tile g
          = some (.ok (n, writeAll cs tile g)) := by
  obtain ⟨cs1, hcs1, hrun1⟩ := outlineFold_spec w h box tile hw hh (windows2 geometry)
  by_cases hfill : (should_fill tile.tile_type && decide (geometry.length ≥ 3)) = true
  · obtain ⟨cs2, hcs2, hrun2⟩ := fill_polygon_spec w h box geometry tile hw hh hwM
    refine ⟨cs1 ++ cs2, ?_, ?_⟩
    · intro c hcmem
      rcases List.mem_append.mp hcmem with hcc | hcc
      · exact hcs1 c hcc
      · exact hcs2 c hcc
    · intro g hgw hgh hgb
      obtain ⟨n1, h1⟩ := hrun1 g 0 hgw hgh hgb
      obtain ⟨n2, h2⟩ := hrun2 (writeAll cs1 tile g)
        (by rw [writeAll_width, hgw]) (by rw [writeAll_height, hgh])
        (by rw [writeAll_box, hgb])
      refine ⟨n1 + n2, ?_⟩
      unfold rasterize_line
      rw [h1]
      dsimp only
      rw [if_pos hfill, h2]
      dsimp only
      rw [writeAll_append]
  · refine ⟨cs1, hcs1, ?_⟩
    intro g hgw hgh hgb
    obtain ⟨n1, h1⟩ := hrun1 g 0 hgw hgh hgb
    refine ⟨n1, ?_⟩
    unfold rasterize_line
    rw [h1]
    dsimp only
    rw [if_neg hfill]
theorem rasterize_element_spec (w h : Nat) (box : BoundingBox) (e : OsmElement)
    (hw : 1 ≤ w) (hh : 1 ≤ h) (hwM : w ≤ USIZE_MAX) :
    ∃ cs : List (Nat × Nat), (∀ c ∈ cs, c.1 < w ∧ c.2 < h) ∧
      ∀ g : TileGrid, g.width = w → g.height = h → g.bounding_box = box →
        ∃ n, rasterize_element e g = some (.ok (n,
          writeAll cs (Tile.with_metadata e.to_tile_type e.to_tile_metadata) g)) := by
  by_cases hemp : e.to_tile_type = TileType.Empty
  · refine ⟨[], by simp, ?_⟩
    intro g hgw hgh hgb
    refine ⟨0, ?_⟩
    unfold rasterize_element
    rw [if_pos hemp]
    rfl
  · cases hgeo : e.geometry with
    | nil =>
      refine ⟨[], by simp, ?_⟩
      intro g hgw hgh hgb
      refine ⟨0, ?_⟩
      unfold rasterize_element
      rw [if_neg hemp, hgeo]
      rfl
    | cons p rest =>
      cases rest with
      | nil =>
        cases hm : (TileGrid.new w h box 1).geo_to_grid p.1 p.2 with
        | none =>
          refine ⟨[], by simp, ?_⟩
          intro g hgw hgh hgb
          have hg : g.geo_to_grid p.1 p.2 = none := by
            rw [TileGrid.geo_to_grid_congr g (TileGrid.new w h box 1)
              (by rw [hgw]; rfl) (by rw [hgh]; rfl) (by rw [hgb]; rfl)]
            exact hm
          refine ⟨0, ?_⟩
          unfold rasterize_element
          rw [if_neg hemp, hgeo]
          dsimp only
          rw [hg]
          rfl
        | some c =>
          obtain ⟨x, y⟩ := c
          have hbc : x < w ∧ y < h := (TileGrid.new w h box 1).geo_to_grid_mem hw hh hm
          refine ⟨[(x, y)], ?_, ?_⟩
          · intro c2 hc2
            simp only [List.mem_singleton] at hc2
            subst hc2
            exact hbc
          · intro g hgw hgh hgb
            have hg : g.geo_to_grid p.1 p.2 = some (x, y) := by
              rw [TileGrid.geo_to_grid_congr g (TileGrid.new w h box 1)
                (by rw [hgw]; rfl) (by rw [hgh]; rfl) (by rw [hgb]; rfl)]
              exact hm
            refine ⟨(if (g.tileAt x y).can_be_overwritten_by
                (Tile.with_metadata e.to_tile_type e.to_tile_metadata)
              then 1 else 0), ?_⟩
            unfold rasterize_element
            rw [if_neg hemp, hgeo]
            dsimp only
            rw [hg]
            dsimp only
            rw [g.set_tile_with_priority_ok (by omega) (by omega)]
            rfl
      | cons q rest2 =>
        obtain ⟨cs, hcs, hrun⟩ := rasterize_line_spec w h box (p :: q :: rest2)
          (Tile.with_metadata e.to_tile_type e.to_tile_metadata) hw hh hwM
        refine ⟨cs, hcs, ?_⟩
        intro g hgw hgh hgb
        obtain ⟨n, h1⟩ := hrun g hgw hgh hgb
        refine ⟨n, ?_⟩
        unfold rasterize_element
        rw [if_neg hemp, hgeo]
        exact h1

/-- The priority a single element contributes at a cell: the priority found
there after rasterizing the element alone on a fresh empty grid. -/
def element_priority_effect (w h : Nat) (box : BoundingBox) (e : OsmElement)
    (x y : Nat) : Nat :=
  match rasterize_element e (TileGrid.new w h box 1) with
  | some (.ok (_, g1)) => g1.prioAt x y
  | _ => 0

theorem prioAt_new (w h : Nat) (box : BoundingBox) (m : Rat) (x y : Nat) :
    (TileGrid.new w h box m).prioAt x y = 0 := by
  unfold TileGrid.prioAt
  rw [TileGrid.tileAt_new]
  rfl

theorem rasterize_element_priority (w h : Nat) (box : BoundingBox)
    (e : OsmElement) (hw : 1 ≤ w) (hh : 1 ≤ h) (hwM : w ≤ USIZE_MAX) :
    ∀ g : TileGrid, g.width = w → g.height = h → g.bounding_box = box →
    ∃ n g1, rasterize_element e g = some (.ok (n, g1)) ∧
      g1.width = w ∧ g1.height = h ∧ g1.bounding_box = box ∧
      ∀ x y, g1.prioAt x y
        = max (g.prioAt x y) (element_priority_effect w h box e x y) := by
  obtain ⟨cs, hcs, hrun⟩ := rasterize_element_spec w h box e hw hh hwM
  intro g hgw hgh hgb
  obtain ⟨n, hr⟩ := hrun g hgw hgh hgb
  obtain ⟨n0, hr0⟩ := hrun (TileGrid.new w h box 1) rfl rfl rfl
  refine ⟨n, _, hr, by rw [writeAll_width, hgw], by rw [writeAll_height, hgh],
    by rw [writeAll_box, hgb], ?_⟩
  intro x y
  have heff : element_priority_effect w h box e x y
      = if (x, y) ∈ cs
        then (Tile.with_metadata e.to_tile_type e.to_tile_metadata).tile_type.priority
        else 0 := by
    unfold element_priority_effect
    rw [hr0]
    dsimp only
    have := prioAt_writeAll w h
      (Tile.with_metadata e.to_tile_type e.to_tile_metadata) cs hcs
      (TileGrid.new w h box 1) rfl rfl x y
    rw [this, prioAt_new]
    by_cases hm : (x, y) ∈ cs
    · rw [if_pos hm, if_pos hm]
      omega
    · rw [if_neg hm, if_neg hm]
  rw [heff,
    prioAt_writeAll w h (Tile.with_metadata e.to_tile_type e.to_tile_metadata)
      cs hcs g hgw hgh x y]
  by_cases hm : (x, y) ∈ cs
  · rw [if_pos hm, if_pos hm]
  · rw [if_neg hm, if_neg hm]
    omega

theorem rasterize_all_cons (e : OsmElement) (rest : List OsmElement)
    (g : TileGrid) :
    rasterize_all (e :: rest) g =
      match rasterize_element e g with
      | none => none
      | some (.error err) => some (.error err)
      | some (.ok (n, g1)) =>
        match rasterize_all rest g1 with
        | none => none
        | some (.error err) => some (.error err)
        | some (.ok (m, g2)) => some (.ok (n + m, g2)) := rfl

theorem rasterize_all_priority (w h : Nat) (box : BoundingBox)
    (hw : 1 ≤ w) (hh : 1 ≤ h) (hwM : w ≤ USIZE_MAX) :
    ∀ (L : List OsmElement) (g : TileGrid),
      g.width = w → g.height = h → g.bounding_box = box →
      ∃ n g1, rasterize_all L g = some (.ok (n, g1)) ∧
        g1.width = w ∧ g1.height = h ∧ g1.bounding_box = box ∧
        ∀ x y, g1.prioAt x y
          = (L.map (fun e => element_priority_effect w h box e x y)).foldl max
              (g.prioAt x y) := by
  intro L
  induction L with
  | nil =>
    intro g hgw hgh hgb
    exact ⟨0, g, rfl, hgw, hgh, hgb, fun x y => rfl⟩
  | cons e rest ih =>
    intro g hgw hgh hgb
    obtain ⟨n, g1, hr1, hg1w, hg1h, hg1b, hp1⟩ :=
      rasterize_element_priority w h box e hw hh hwM g hgw hgh hgb
    obtain ⟨m, g2, hr2, hg2w, hg2h, hg2b, hp2⟩ := ih g1 hg1w hg1h hg1b
    refine ⟨n + m, g2, ?_, hg2w, hg2h, hg2b, ?_⟩
    · rw [rasterize_all_cons, hr1]
      dsimp only
      rw [hr2]
    · intro x y
      rw [hp2, List.map_cons, List.foldl_cons]
      congr 1
      exact hp1 x y

theorem foldl_max_perm : ∀ {l1 l2 : List Nat}, l1.Perm l2 →
    ∀ a : Nat, l1.foldl max a = l2.foldl max a := by
  intro l1 l2 hp
  induction hp with
  | nil => intro a; rfl
  | cons x _ ih =>
    intro a
    simp only [List.foldl_cons]
    exact ih _
  | swap x y l =>
    intro a
    simp only [List.foldl_cons]
    rw [show max (max a y) x = max (max a x) y from by omega]
  | trans _ _ ih1 ih2 =>
    intro a
    rw [ih1, ih2]

/-- C2: the rasterization pass over the same empty grid, run on any two
permutations of the element list, succeeds on both and produces the same
tile priority at every cell: element order never changes the final priority
outcome. -/
theorem claim_C2_order_invariance (L L2 : List OsmElement) (hp : L.Perm L2)
    (w h : Nat) (box : BoundingBox) (mpt : Rat)
    (hw : 1 ≤ w) (hh : 1 ≤ h) (hwM : w ≤ USIZE_MAX) :
    ∃ n g1 n2 g2,
      rasterize_all L (TileGrid.new w h box mpt) = some (.ok (n, g1)) ∧
      rasterize_all L2 (TileGrid.new w h box mpt) = some (.ok (n2, g2)) ∧
      ∀ x y, g1.prioAt x y = g2.prioAt x y := by
  obtain ⟨n, g1, hr1, _, _, _, hp1⟩ := rasterize_all_priority w h box hw hh hwM
    L (TileGrid.new w h box mpt) rfl rfl rfl
  obtain ⟨n2, g2, hr2, _, _, _, hp2⟩ := rasterize_all_priority w h box hw hh hwM
    L2 (TileGrid.new w h box mpt) rfl rfl rfl
  refine ⟨n, g1, n2, g2, hr1, hr2, ?_⟩
  intro x y
  rw [hp1, hp2,
    foldl_max_perm (hp.map (fun e => element_priority_effect w h box e x y)) _]

theorem bresPlot_skip (g : TileGrid) (x y : Int) (tile : Tile) (count : Nat)
    (h : x < 0 ∨ y < 0) : bresPlot g x y tile count = .ok (count, g) := by
  unfold bresPlot
  rw [if_neg (by omega)]

/-- C6: the rasterizer never reaches the out-of-bounds error branch of
set_tile_with_priority: draw_line with in-range endpoints, fill_polygon on
any geometry, and rasterize_element on any element all return an ok result
on a grid with both dimensions at least 1 (width within the usize range),
and a Bresenham step with a negative coordinate is silently skipped,
leaving count and grid unchanged. -/
theorem claim_C6_rasterizer_in_bounds :
    (∀ (g : TileGrid) (x1 y1 x2 y2 : Nat) (tile : Tile),
      x1 < g.width → y1 < g.height → x2 < g.width → y2 < g.height →
      ∃ n g1, draw_line x1 y1 x2 y2 tile g = some (.ok (n, g1))) ∧
    (∀ (g : TileGrid) (geometry : List (Rat × Rat)) (tile : Tile),
      1 ≤ g.width → 1 ≤ g.height → g.width ≤ USIZE_MAX →
      ∃ n g1, fill_polygon geometry tile g = .ok (n, g1)) ∧
    (∀ (g : TileGrid) (e : OsmElement),
      1 ≤ g.width → 1 ≤ g.height → g.width ≤ USIZE_MAX →
      ∃ n g1, rasterize_element e g = some (.ok (n, g1))) ∧
    (∀ (g : TileGrid) (x y : Int) (tile : Tile) (count : Nat),
      x < 0 ∨ y < 0 → bresPlot g x y tile count = .ok (count, g)) := by
  refine ⟨?_, ?_, ?_, fun g x y tile count h => bresPlot_skip g x y tile count h⟩
  · intro g x1 y1 x2 y2 tile hx1 hy1 hx2 hy2
    obtain ⟨cs, _, hrun⟩ := draw_line_spec g.width g.height x1 y1 x2 y2 tile
      hx1 hy1 hx2 hy2
    obtain ⟨n, heq⟩ := hrun g rfl rfl
    exact ⟨n, _, heq⟩
  · intro g geometry tile hw hh hwM
    obtain ⟨cs, _, hrun⟩ := fill_polygon_spec g.width g.height g.bounding_box
      geometry tile hw hh hwM
    obtain ⟨n, heq⟩ := hrun g rfl rfl rfl
    exact ⟨n, _, heq⟩
  · intro g e hw hh hwM
    obtain ⟨cs, _, hrun⟩ := rasterize_element_spec g.width g.height
      g.bounding_box e hw hh hwM
    obtain ⟨n, heq⟩ := hrun g rfl rfl rfl
    exact ⟨n, _, heq⟩

/-- Concrete elements used by the C2 and C6 witnesses. -/
def wE1 : OsmElement := ⟨1, .Node, [("amenity", "cafe")], [(1/2, 1/2)]⟩

def wE2 : OsmElement := ⟨2, .Node, [("highway", "primary")], [(1/2, 1/2)]⟩

/-- Witness for C6 at a concrete grid, line, geometry and element. -/
theorem claim_C6_witness :
    (∃ n g1, draw_line 0 0 1 1 (Tile.new TileType.Road) wGrid2
      = some (.ok (n, g1))) ∧
    (∃ n g1, fill_polygon [] (Tile.new TileType.Building) wGrid2
      = .ok (n, g1)) ∧
    (∃ n g1, rasterize_element wE1 wGrid2 = some (.ok (n, g1))) ∧
    bresPlot wGrid2 (-1) 0 (Tile.new TileType.Road) 5 = .ok (5, wGrid2) :=
  ⟨claim_C6_rasterizer_in_bounds.1 wGrid2 0 0 1 1 (Tile.new TileType.Road)
      (by decide) (by decide) (by decide) (by decide),
   claim_C6_rasterizer_in_bounds.2.1 wGrid2 [] (Tile.new TileType.Building)
      (by decide) (by decide) (by decide),
   claim_C6_rasterizer_in_bounds.2.2.1 wGrid2 wE1 (by decide) (by decide)
      (by decide),
   claim_C6_rasterizer_in_bounds.2.2.2 wGrid2 (-1) 0 (Tile.new TileType.Road) 5
      (Or.inl (by decide))⟩

/-- Witness for C2 at a concrete two-element list and its transposition. -/
theorem claim_C2_witness :
    ∃ n g1 n2 g2,
      rasterize_all [wE1, wE2] (TileGrid.new 2 2 wBox 1) = some (.ok (n, g1)) ∧
      rasterize_all [wE2, wE1] (TileGrid.new 2 2 wBox 1) = some (.ok (n2, g2)) ∧
      ∀ x y, g1.prioAt x y = g2.prioAt x y :=
  claim_C2_order_invariance [wE1, wE2] [wE2, wE1] (List.Perm.swap wE2 wE1 [])
    2 2 wBox 1 (by decide) (by decide) (by decide)

end OsmTiles
